import Mathlib

/-!
Verification of the text2sql analytics agent's query-generation-and-safety
pipeline and result-delivery protocol.

Python strings are modelled as `List Char`.  Case folding is modelled by
`Char.toLower` (the keyword alphabet is ASCII), the regex word class `\w`
by ASCII alphanumerics plus underscore, and `str.strip` by dropping
whitespace characters on both ends.
-/

set_option autoImplicit false

namespace Text2Sql

/-- Word character, modelling the regex class `\w` used by the `\b` word
boundaries of `WRITE_RE` in `backend/shared/security.py`. -/
def isWordChar (c : Char) : Bool :=
  c.isAlphanum || c = '_'

/-- The mutating keywords of `WRITE_RE` in `backend/shared/security.py`,
stored lower-case. -/
def writeKeywords : List (List Char) :=
  [ "insert".data, "update".data, "delete".data, "alter".data, "drop".data,
    "truncate".data, "merge".data, "call".data, "copy".data, "grant".data,
    "revoke".data ]

/-- Case-insensitive whole-word match of the keyword `kw` (given lower-case)
at position `i` of `s`: the lower-cased text at `i` equals `kw` and a word
boundary holds on both sides, exactly as `\b(...)\b` with `re.I` matches. -/
def matchKWAt (s : List Char) (i : Nat) (kw : List Char) : Bool :=
  ((s.drop i).take kw.length).map Char.toLower = kw
    && (i == 0 || !isWordChar (s.getD (i - 1) ' '))
    && (s.length ≤ i + kw.length || !isWordChar (s.getD (i + kw.length) ' '))

/-- Whether `WRITE_RE.search` finds a match in `s`: some position carries a
whole-word, case-insensitive occurrence of a mutating keyword. -/
def hasWriteKeyword (s : List Char) : Bool :=
  (List.range (s.length + 1)).any fun i => writeKeywords.any fun kw => matchKWAt s i kw

/-- Embedding of `is_safe` from `backend/shared/security.py`:
`return not WRITE_RE.search(sql)`. -/
def is_safe (s : List Char) : Bool :=
  !hasWriteKeyword s

/-- Specification-side reading of "contains a whole-word, case-insensitive
occurrence of a mutating keyword": the string splits as `pre ++ w ++ post`
where `w` lower-cases to a keyword and the characters adjacent to `w` (when
they exist) are not word characters. -/
def HasMutatingWholeWord (s : List Char) : Prop :=
  ∃ pre w post, s = pre ++ w ++ post ∧ w.map Char.toLower ∈ writeKeywords ∧
    (∀ c, pre.getLast? = some c → isWordChar c = false) ∧
    (∀ c, post.head? = some c → isWordChar c = false)

/-- Whitespace trimming, modelling Python `str.strip()`. -/
def pyStrip (s : List Char) : List Char :=
  ((s.dropWhile Char.isWhitespace).reverse.dropWhile Char.isWhitespace).reverse

/-- The opening tag `<sql>` matched (case-insensitively) by `extract_sql`. -/
def tagOpen : List Char := "<sql>".data

/-- The closing tag `</sql>` matched (case-insensitively) by `extract_sql`. -/
def tagClose : List Char := "</sql>".data

/-- Case-insensitive occurrence of the pattern `pat` (given lower-case) at
position `i` of `s`. -/
def ciAt (s : List Char) (i : Nat) (pat : List Char) : Bool :=
  ((s.drop i).take pat.length).map Char.toLower = pat

/-- Least position `j ≥ start` at which `pat` occurs case-insensitively
in `s`. -/
def findFrom (s : List Char) (start : Nat) (pat : List Char) : Option Nat :=
  (List.range (s.length + 1)).find? fun j => start ≤ j && ciAt s j pat

/-- Position of the first `<sql>...</sql>` pair found by
`re.search(r"<sql>([\s\S]*?)</sql>", text_, re.I)`: the least `i` carrying an
opening tag that is followed by some closing tag, together with the least
such closing-tag position (the lazy inner group stops at the first one). -/
def firstPair (s : List Char) : Option (Nat × Nat) :=
  ((List.range (s.length + 1)).find? fun i =>
      ciAt s i tagOpen && (findFrom s (i + 5) tagClose).isSome).bind
    fun i => (findFrom s (i + 5) tagClose).map fun j => (i, j)

/-- Embedding of `extract_sql` from `backend/shared/security.py`: the inner
text of the first `<sql>...</sql>` pair, stripped; or the stripped input when
no pair exists. -/
def extract_sql (t : List Char) : List Char :=
  match firstPair t with
  | some (i, j) => pyStrip ((t.drop (i + 5)).take (j - (i + 5)))
  | none => pyStrip t

/-- A case-insensitive `<sql>` tag at `i` paired with a case-insensitive
`</sql>` tag at `j`, with the closing tag starting at or after the end of the
opening tag. -/
def PairAt (t : List Char) (i j : Nat) : Prop :=
  ciAt t i tagOpen = true ∧ ciAt t j tagClose = true ∧ i + 5 ≤ j

/-- The first tag pair: its opening tag is at the least position that has any
closing tag after it, and its closing tag is the earliest one after that
opening tag (the regex group is lazy). -/
def IsFirstPair (t : List Char) (i j : Nat) : Prop :=
  PairAt t i j ∧ (∀ i' j', PairAt t i' j' → i ≤ i') ∧
    (∀ j', ciAt t j' tagClose = true → i + 5 ≤ j' → j ≤ j')

/-- The pagination-metadata formula shared by the `/query` response in
`app/api.py` and the streaming trailer in `backend/shared/db.py`:
`(total + page_size - 1) // page_size`, here over `Nat` (defined for
`page_size ≥ 1`; the guard-free Python version is `total_pages_py`). -/
def total_pages (total pageSize : Nat) : Nat :=
  (total + pageSize - 1) / pageSize

/-- Python floor division `a // b`, which raises `ZeroDivisionError` when the
divisor is zero; the error branch is `none`. -/
def pyFloorDiv (a b : Int) : Option Int :=
  if b = 0 then none else some (Int.fdiv a b)

/-- The pagination-metadata computation of `app/api.py` and
`backend/shared/db.py` exactly as written: `(total + page_size - 1) //
page_size` over Python ints, with no guard on the divisor. -/
def total_pages_py (total pageSize : Int) : Option Int :=
  pyFloorDiv (total + pageSize - 1) pageSize

/-- Acceptance by the `/query` request model `QueryBody` of `app/api.py`:
`page: int = 1` and `page_size: int = 50` carry no `ge=1` (or any other)
constraint, so every integer pair is accepted. -/
def queryBodyAccepts (_page _pageSize : Int) : Bool :=
  true

/-- JSON-serializable scalar cell value returned by the database driver. -/
inductive JVal where
  | jnull : JVal
  | jbool (b : Bool) : JVal
  | jint (n : Int) : JVal
  | jstr (s : List Char) : JVal
deriving DecidableEq

/-- The relational-database collaborator, modelled as pure oracles: `exec`
maps a query string to the cursor's `(column names, fetched rows)` and
`count` maps a query string to the integer read back from `fetchone()[0]`.
The same oracle serves `run_page` and `stream_query_results`. -/
structure Db where
  exec : List Char → List (List Char) × List (List JVal)
  count : List Char → Nat

/-- Decimal digit character. -/
def digitChar (n : Nat) : Char :=
  Char.ofNat (48 + n)

/-- Decimal representation of a natural number, as produced by Python's
`str`/f-string formatting of a non-negative int. -/
def natDigits (n : Nat) : List Char :=
  if _h : n < 10 then [digitChar n]
  else natDigits (n / 10) ++ [digitChar (n % 10)]
decreasing_by exact Nat.div_lt_self (by omega) (by omega)

/-- The COUNT query built by `run_count` in `backend/shared/db.py`:
`SELECT COUNT(1) FROM ({sql}) AS sub`. -/
def countQuery (sql : List Char) : List Char :=
  "SELECT COUNT(1) FROM (".data ++ sql ++ ") AS sub".data

/-- The bounded page query built by `run_page` and `stream_query_results`:
`SELECT * FROM ({sql}) AS sub LIMIT {page_size} OFFSET {(page-1)*page_size}`. -/
def paginatedQuery (sql : List Char) (page pageSize : Nat) : List Char :=
  "SELECT * FROM (".data ++ sql ++ ") AS sub LIMIT ".data ++ natDigits pageSize
    ++ " OFFSET ".data ++ natDigits ((page - 1) * pageSize)

/-- Embedding of `run_page` from `backend/shared/db.py`: execute the bounded
page query, read the columns and rows from its cursor, and read the total from
the COUNT query. -/
def run_page (db : Db) (sql : List Char) (page pageSize : Nat) :
    List (List Char) × List (List JVal) × Nat :=
  let r := db.exec (paginatedQuery sql page pageSize)
  (r.1, r.2, db.count (countQuery sql))

/-- Successful `/query` response shape built in `app/api.py`. -/
structure QueryResponse where
  sql : List Char
  columns : List (List Char)
  rows : List (List JVal)
  page : Nat
  page_size : Nat
  total_rows : Nat
  total_pages : Nat
deriving DecidableEq

/-- Externally visible side effects of the two pipelines, in program order:
database executions, the job-record insert, and the queue send. -/
inductive Effect where
  | dbExec (q : List Char) : Effect
  | dbCount (q : List Char) : Effect
  | insertJob (jobId status s3Key : List Char) : Effect
  | sendMessage (jobId sql s3Key : List Char) : Effect
deriving DecidableEq

/-- Outcome of a dependency call: a value, or a raised exception carrying its
message text. -/
inductive Dep (α : Type) where
  | ok (a : α) : Dep α
  | raises (msg : List Char) : Dep α

/-- Outcome of a request handler: a successful payload, a raised
`HTTPException(code, detail)`, or an exception that leaves the handler
unhandled (to be turned into a generic 500 by the hosting framework). -/
inductive Outcome (α : Type) where
  | ok (a : α) : Outcome α
  | http (code : Nat) (detail : List Char) : Outcome α
  | unhandled (msg : List Char) : Outcome α
deriving DecidableEq

/-- Detail string of the uniform validation rejection in `app/api.py`. -/
def unsafeDetail : List Char :=
  "Unsafe or invalid SQL generated".data

/-- Detail string of the missing-LLM configuration error in `app/api.py`. -/
def notConfiguredDetail : List Char :=
  "LLM not configured".data

/-- The check `sql.lower().startswith("select")` from `app/api.py`. -/
def startsSelect (sql : List Char) : Bool :=
  "select".data.isPrefixOf (sql.map Char.toLower)

/-- Embedding of the `/query` handler of `app/api.py` from the point where the
model output is available: `configured` is whether the OpenAI client exists,
`gen` the outcome of the generation call, `dbc` the outcome of obtaining the
working database.  Returns the handler outcome and the side effects issued, in
program order.  The handler has no try/except: a raised dependency exception
propagates out unhandled. -/
def queryPipeline (configured : Bool) (gen : Dep (List Char)) (dbc : Dep Db)
    (page pageSize : Nat) : Outcome QueryResponse × List Effect :=
  if !configured then (.http 500 notConfiguredDetail, [])
  else match gen with
  | .raises m => (.unhandled m, [])
  | .ok content =>
    let sql := extract_sql content
    if !startsSelect sql || !is_safe sql then (.http 400 unsafeDetail, [])
    else match dbc with
      | .raises m => (.unhandled m, [])
      | .ok db =>
        let r := run_page db sql page pageSize
        (.ok ⟨sql, r.1, r.2.1, page, pageSize, r.2.2, total_pages r.2.2 pageSize⟩,
         [.dbExec (paginatedQuery sql page pageSize), .dbCount (countQuery sql)])

/-- Embedding of the `/export/start` handler of `app/api.py` from the point
where the model output is available: `keyBase` is the `EXPORT_PREFIX`
configuration and `jobId` the freshly generated UUID string.  On success it
inserts the PENDING job record and only then sends the queue message. -/
def exportPipeline (configured : Bool) (gen : Dep (List Char))
    (keyBase jobId : List Char) : Outcome (List Char × List Char) × List Effect :=
  if !configured then (.http 500 notConfiguredDetail, [])
  else match gen with
  | .raises m => (.unhandled m, [])
  | .ok content =>
    let sql := extract_sql content
    if !startsSelect sql || !is_safe sql then (.http 400 unsafeDetail, [])
    else
      let s3Key := keyBase ++ "/".data ++ jobId ++ ".csv".data
      (.ok (jobId, "PENDING".data),
       [.insertJob jobId "PENDING".data s3Key, .sendMessage jobId sql s3Key])

/-- A database oracle with empty answers, used for concrete evaluations. -/
def trivialDb : Db :=
  ⟨fun _ => ([], []), fun _ => 0⟩

/-- Hexadecimal digit character (lower-case, as in Python's `\uXXXX`
escapes). -/
def hexDigit (n : Nat) : Char :=
  if n < 10 then Char.ofNat (48 + n) else Char.ofNat (87 + n)

/-- Four-digit lower-case hexadecimal rendering of `n < 0x10000`. -/
def hex4 (n : Nat) : List Char :=
  [hexDigit (n / 4096 % 16), hexDigit (n / 256 % 16), hexDigit (n / 16 % 16),
   hexDigit (n % 16)]

/-- Escape of one character as performed by `json.dumps` with its default
`ensure_ascii=True`: quote and backslash escaped, the five shorthand
control escapes, all other characters outside printable ASCII escaped as
`\uXXXX` (as a surrogate pair beyond the BMP), everything else literal. -/
def escapeChar (c : Char) : List Char :=
  if c = '"' then ['\\', '"']
  else if c = '\\' then ['\\', '\\']
  else if c = '\n' then ['\\', 'n']
  else if c = '\r' then ['\\', 'r']
  else if c = '\t' then ['\\', 't']
  else if c.toNat = 8 then ['\\', 'b']
  else if c.toNat = 12 then ['\\', 'f']
  else if c.toNat < 32 ∨ 127 ≤ c.toNat then
    if c.toNat < 65536 then '\\' :: 'u' :: hex4 c.toNat
    else ('\\' :: 'u' :: hex4 (55296 + (c.toNat - 65536) / 1024))
      ++ ('\\' :: 'u' :: hex4 (56320 + (c.toNat - 65536) % 1024))
  else [c]

/-- Escape of a whole string body. -/
def escapeList : List Char → List Char
  | [] => []
  | c :: cs => escapeChar c ++ escapeList cs

/-- `json.dumps` of a Python `str`: a quoted, escaped string literal. -/
def dumpsStr (s : List Char) : List Char :=
  '"' :: escapeList s ++ ['"']

/-- Python `str(n)` of an int (also its `json.dumps` rendering). -/
def intDigits (n : Int) : List Char :=
  if n < 0 then '-' :: natDigits n.natAbs else natDigits n.toNat

/-- `json.dumps` of one scalar cell value. -/
def jvalDumps : JVal → List Char
  | .jnull => "null".data
  | .jbool true => "true".data
  | .jbool false => "false".data
  | .jint n => intDigits n
  | .jstr s => dumpsStr s

/-- The `", ".join` used by `json.dumps`' default item separator. -/
def sepJoinComSpace : List (List Char) → List Char
  | [] => []
  | [x] => x
  | x :: y :: xs => x ++ ", ".data ++ sepJoinComSpace (y :: xs)

/-- `json.dumps` of a list of strings (the `columns` list). -/
def dumpsStrList (xs : List (List Char)) : List Char :=
  '[' :: sepJoinComSpace (xs.map dumpsStr) ++ [']']

/-- `json.dumps(list(row))` of one database row of scalar cells. -/
def dumpsRow (r : List JVal) : List Char :=
  '[' :: sepJoinComSpace (r.map jvalDumps) ++ [']']

/-- The row fragments yielded by the `for row in rows` body of
`stream_query_results`: a comma before every row except the first, then the
row's `json.dumps`. -/
def emitRows : Bool → List (List JVal) → List (List Char)
  | _, [] => []
  | first, r :: rs =>
    (if first then [dumpsRow r] else [",".data, dumpsRow r]) ++ emitRows false rs

/-- The `while True: rows = cur.fetchmany(chunk_size)` loop of
`stream_query_results`: fetch a batch of at most `chunk` rows from the open
cursor, stop on an empty batch, otherwise emit the batch's fragments and
continue. -/
def streamRowsLoop (chunk : Nat) : List (List JVal) → Bool → List (List Char)
  | remaining, first =>
    if h : (remaining.take chunk).isEmpty then []
    else
      emitRows first (remaining.take chunk)
        ++ streamRowsLoop chunk (remaining.drop chunk) false
termination_by remaining => remaining.length
decreasing_by
  simp only [List.isEmpty_iff] at h
  have hc : chunk ≠ 0 := by
    intro hz
    exact h (by simp [hz])
  have hr : remaining ≠ [] := by
    intro hz
    exact h (by simp [hz])
  simp only [List.length_drop]
  cases remaining with
  | nil => exact absurd rfl hr
  | cons a l => simp; omega

/-- Embedding of `stream_query_results` from `backend/shared/db.py`: the
fragments yielded for `(sql, page, page_size, chunk_size)` — the JSON
preamble carrying `sql` and the columns, the rows streamed in
`chunk_size`-bounded batches, and the pagination trailer. -/
def stream_query_results (db : Db) (sql : List Char) (page pageSize chunk : Nat) :
    List (List Char) :=
  let r := db.exec (paginatedQuery sql page pageSize)
  let total := db.count (countQuery sql)
  ("\x7b\"sql\": ".data ++ dumpsStr sql ++ ", \"columns\": ".data
      ++ dumpsStrList r.1 ++ ", \"rows\": [".data)
    :: streamRowsLoop chunk r.2 true
    ++ ["], \"pagination\": \x7b".data,
        "\"page\": ".data ++ natDigits page ++ ", \"page_size\": ".data
          ++ natDigits pageSize ++ ", \"total_rows\": ".data ++ natDigits total
          ++ ", ".data,
        "\"total_pages\": ".data ++ natDigits (total_pages total pageSize),
        "\x7d\x7d".data]

/-- A parsed JSON document. -/
inductive Json where
  | null : Json
  | bool (b : Bool) : Json
  | num (n : Int) : Json
  | str (s : List Char) : Json
  | arr (elems : List Json) : Json
  | obj (fields : List (List Char × Json)) : Json

/-- JSON insignificant whitespace. -/
def isWs (c : Char) : Bool :=
  c = ' ' || c = '\t' || c = '\n' || c = '\r'

/-- Skipping of insignificant whitespace. -/
def skipWs : List Char → List Char
  | [] => []
  | c :: cs => if isWs c then skipWs cs else c :: cs

/-- Value of a hexadecimal digit character. -/
def hexVal (c : Char) : Option Nat :=
  if '0' ≤ c ∧ c ≤ '9' then some (c.toNat - 48)
  else if 'a' ≤ c ∧ c ≤ 'f' then some (c.toNat - 87)
  else if 'A' ≤ c ∧ c ≤ 'F' then some (c.toNat - 55)
  else none

/-- Decoding of a one-character escape shorthand. -/
def simpleEscape (e : Char) : Option Char :=
  if e = '"' then some '"'
  else if e = '\\' then some '\\'
  else if e = '/' then some '/'
  else if e = 'n' then some '\n'
  else if e = 't' then some '\t'
  else if e = 'r' then some '\r'
  else if e = 'b' then some (Char.ofNat 8)
  else if e = 'f' then some (Char.ofNat 12)
  else none

/-- Value of four hexadecimal digit characters. -/
def hex4Val (a b c d : Char) : Option Nat :=
  match hexVal a, hexVal b, hexVal c, hexVal d with
  | some x1, some x2, some x3, some x4 => some (((x1 * 16 + x2) * 16 + x3) * 16 + x4)
  | _, _, _, _ => none

mutual

/-- Parser for a JSON string body (after the opening quote), returning the
decoded characters and the input after the closing quote. -/
def parseStringBody : List Char → Option (List Char × List Char)
  | [] => none
  | c :: cs =>
    if c = '"' then some ([], cs)
    else if c = '\\' then parseEscape cs
    else if c.toNat < 32 then none
    else (parseStringBody cs).map fun p => (c :: p.1, p.2)

/-- Parser for the remainder of a string body after a backslash. -/
def parseEscape : List Char → Option (List Char × List Char)
  | [] => none
  | e :: cs2 =>
    if e = 'u' then parseUnicodeEscape cs2
    else
      match simpleEscape e with
      | some d => (parseStringBody cs2).map fun p => (d :: p.1, p.2)
      | none => none

/-- Parser for the remainder of a string body after `\u`: four hex digits,
which must not denote a lone surrogate; a high surrogate must be followed by
an escaped low surrogate, the pair denoting one supplementary character. -/
def parseUnicodeEscape : List Char → Option (List Char × List Char)
  | a :: b :: c3 :: d :: cs3 =>
    match hex4Val a b c3 d with
    | some n =>
      if 55296 ≤ n ∧ n ≤ 56319 then parseLowSurrogate n cs3
      else if 56320 ≤ n ∧ n ≤ 57343 then none
      else (parseStringBody cs3).map fun p => (Char.ofNat n :: p.1, p.2)
    | none => none
  | _ => none

/-- Parser for the escaped low surrogate completing a surrogate pair whose
high half had value `hi`. -/
def parseLowSurrogate (hi : Nat) : List Char → Option (List Char × List Char)
  | '\\' :: 'u' :: a :: b :: c3 :: d :: cs4 =>
    match hex4Val a b c3 d with
    | some m2 =>
      if 56320 ≤ m2 ∧ m2 ≤ 57343 then
        (parseStringBody cs4).map fun p =>
          (Char.ofNat (65536 + (hi - 55296) * 1024 + (m2 - 56320)) :: p.1, p.2)
      else none
    | none => none
  | _ => none

end

/-- Maximal run of decimal digits at the head of the input. -/
def takeDigits : List Char → List Char × List Char
  | [] => ([], [])
  | c :: cs =>
    if c.isDigit then
      let p := takeDigits cs
      (c :: p.1, p.2)
    else ([], c :: cs)

/-- Numeric value of a run of decimal digits. -/
def digitsToNat (ds : List Char) : Nat :=
  ds.foldl (fun acc c => acc * 10 + (c.toNat - 48)) 0

/-- Parser for a JSON integer (the only number shape the streamed documents
contain): an optional minus sign and at least one digit, with no leading
zero. -/
def parseNumber (l : List Char) : Option (Int × List Char) :=
  if l.head? = some '-' then
    let p := takeDigits l.tail
    if p.1.isEmpty then none
    else if 2 ≤ p.1.length ∧ p.1.head? = some '0' then none
    else some (-(digitsToNat p.1 : Int), p.2)
  else
    let p := takeDigits l
    if p.1.isEmpty then none
    else if 2 ≤ p.1.length ∧ p.1.head? = some '0' then none
    else some ((digitsToNat p.1 : Int), p.2)

mutual

/-- Fuel-indexed JSON value parser. -/
def parseVal : Nat → List Char → Option (Json × List Char)
  | 0, _ => none
  | fuel + 1, l =>
    let l1 := skipWs l
    if l1.take 4 = "null".data then some (.null, l1.drop 4)
    else if l1.take 4 = "true".data then some (.bool true, l1.drop 4)
    else if l1.take 5 = "false".data then some (.bool false, l1.drop 5)
    else if l1.head? = some '"' then
      (parseStringBody l1.tail).map fun p => (.str p.1, p.2)
    else if l1.head? = some '[' then
      if (skipWs l1.tail).head? = some ']' then some (.arr [], (skipWs l1.tail).tail)
      else (parseElems fuel l1.tail).map fun p => (.arr p.1, p.2)
    else if l1.head? = some '\x7b' then
      if (skipWs l1.tail).head? = some '\x7d' then some (.obj [], (skipWs l1.tail).tail)
      else (parseFields fuel l1.tail).map fun p => (.obj p.1, p.2)
    else (parseNumber l1).map fun p => (.num p.1, p.2)

/-- Fuel-indexed parser for the elements of a non-empty JSON array, up to and
including the closing bracket. -/
def parseElems : Nat → List Char → Option (List Json × List Char)
  | 0, _ => none
  | fuel + 1, l =>
    (parseVal fuel l).bind fun p =>
      if (skipWs p.2).head? = some ',' then
        (parseElems fuel (skipWs p.2).tail).map fun q => (p.1 :: q.1, q.2)
      else if (skipWs p.2).head? = some ']' then some ([p.1], (skipWs p.2).tail)
      else none

/-- Fuel-indexed parser for the fields of a non-empty JSON object, up to and
including the closing brace. -/
def parseFields : Nat → List Char → Option (List (List Char × Json) × List Char)
  | 0, _ => none
  | fuel + 1, l =>
    if (skipWs l).head? = some '"' then
      (parseStringBody (skipWs l).tail).bind fun k =>
        if (skipWs k.2).head? = some ':' then
          (parseVal fuel (skipWs k.2).tail).bind fun p =>
            if (skipWs p.2).head? = some ',' then
              (parseFields fuel (skipWs p.2).tail).map fun q => ((k.1, p.1) :: q.1, q.2)
            else if (skipWs p.2).head? = some '\x7d' then
              some ([(k.1, p.1)], (skipWs p.2).tail)
            else none
        else none
    else none

end

/-- Whole-document JSON parse: one value, optional trailing whitespace,
nothing else.  The fuel `2 * length + 2` exceeds what any input can consume. -/
def parseJsonDoc (l : List Char) : Option Json :=
  (parseVal (2 * l.length + 2) l).bind fun p =>
    if (skipWs p.2).isEmpty then some p.1 else none

/-- The JSON value denoted by one scalar cell. -/
def jsonOfJVal : JVal → Json
  | .jnull => .null
  | .jbool b => .bool b
  | .jint n => .num n
  | .jstr s => .str s

/-- The JSON document carrying a page result: `sql`, `columns`, `rows`, and
the pagination metadata, with `total_pages` computed by the shared formula. -/
def queryDocJson (sql : List Char) (cols : List (List Char))
    (rows : List (List JVal)) (page pageSize total : Nat) : Json :=
  .obj [("sql".data, .str sql),
        ("columns".data, .arr (cols.map .str)),
        ("rows".data, .arr (rows.map fun r => .arr (r.map jsonOfJVal))),
        ("pagination".data,
          .obj [("page".data, .num page), ("page_size".data, .num pageSize),
                ("total_rows".data, .num total),
                ("total_pages".data, .num (total_pages total pageSize))])]

/-- A Python exception raised inside the worker's try block: its class name,
its string message, and the formatted traceback
(`traceback.format_exc()`). -/
structure PyExn where
  cls : List Char
  msg : List Char
  tb : List Char
deriving DecidableEq

/-- Diagnostic text persisted by the except branch of `lambda_handler` in
`backend/lambda/export_worker.py`:
`f"{e.__class__.__name__}: {str(e)}\n{traceback.format_exc()[:1500]}"` —
only the traceback slice is truncated. -/
def workerErrorText (e : PyExn) : List Char :=
  e.cls ++ ": ".data ++ e.msg ++ "\n".data ++ e.tb.take 1500

/-- One UPDATE issued through `update_job_status` of
`backend/lambda/export_worker.py`: the status plus exactly the optional
fields passed a non-None value. -/
structure JobUpdate where
  status : List Char
  started_at : Option Nat
  finished_at : Option Nat
  row_count : Option Nat
  error : Option (List Char)
deriving DecidableEq

/-- The status writes issued by `lambda_handler` for one queue message, in
program order, together with the exception it re-raises (if any).  `body` is
the outcome of the work between the IN_PROGRESS write and the SUCCESS write
(cursor open, batch loop, upload, cleanup): a row count, or a raised
exception.  The except branch writes FAILED with a finish timestamp and the
truncated diagnostic, then re-raises the same exception. -/
def lambda_handler (body : Except PyExn Nat) (t0 t1 : Nat) :
    List JobUpdate × Option PyExn :=
  match body with
  | .ok n =>
    ([⟨"IN_PROGRESS".data, some t0, none, none, none⟩,
      ⟨"SUCCESS".data, none, some t1, some n, none⟩], none)
  | .error e =>
    ([⟨"IN_PROGRESS".data, some t0, none, none, none⟩,
      ⟨"FAILED".data, none, some t1, none, some (workerErrorText e)⟩], some e)

/-- A persisted `export_jobs` row (job store schema of `app/api.py` and
`backend/lambda/export_worker.py`). -/
structure JobRecord where
  job_id : List Char
  status : List Char
  created_at : Nat
  s3_key : List Char
  started_at : Option Nat
  finished_at : Option Nat
  row_count : Option Nat
  error : Option (List Char)
deriving DecidableEq

/-- Embedding of `update_job_status` from `backend/lambda/export_worker.py`:
the UPDATE sets `status` always, and each optional column only when the
corresponding argument is not None — an absent argument leaves the stored
value untouched. -/
def update_job_status (r : JobRecord) (status : List Char)
    (started_at finished_at row_count : Option Nat)
    (error : Option (List Char)) : JobRecord :=
  { r with
    status := status
    started_at := match started_at with | some v => some v | none => r.started_at
    finished_at := match finished_at with | some v => some v | none => r.finished_at
    row_count := match row_count with | some v => some v | none => r.row_count
    error := match error with | some v => some v | none => r.error }

/-- Application of one `JobUpdate` to a stored record via
`update_job_status`. -/
def applyUpdate (r : JobRecord) (u : JobUpdate) : JobRecord :=
  update_job_status r u.status u.started_at u.finished_at u.row_count u.error

/-- Processing of one queue message against the stored record: the record
after all status writes of `lambda_handler`, plus the re-raised exception (if
any). -/
def runWorker (r : JobRecord) (body : Except PyExn Nat) (t0 t1 : Nat) :
    JobRecord × Option PyExn :=
  ((lambda_handler body t0 t1).1.foldl applyUpdate r, (lambda_handler body t0 t1).2)

/-- Embedding of `insert_job` from `app/api.py`: the freshly created PENDING
record. -/
def insert_job (jobId : List Char) (created : Nat) (s3Key : List Char) : JobRecord :=
  ⟨jobId, "PENDING".data, created, s3Key, none, none, none, none⟩

/-- Concrete job record for the C8 evaluation. -/
def c8Job : JobRecord :=
  insert_job ("job-1".data) 0 ("exports/job-1.csv".data)

/-- Concrete exception for the C7/C8 evaluations. -/
def c8Exn : PyExn :=
  ⟨"OperationalError".data, "connection refused".data, "Traceback".data⟩

/-- Helper: the optional last element of `s.take i` is the optional element of
`s` at `i - 1`, provided `1 ≤ i ≤ s.length`. -/
theorem getLast?_take_eq {α : Type} (s : List α) (i : Nat) (h1 : 1 ≤ i) (h2 : i ≤ s.length) :
    (s.take i).getLast? = s[i - 1]? := by
  rw [List.getLast?_eq_getElem?, List.length_take, Nat.min_eq_left h2,
    List.getElem?_take_of_lt (by omega)]

example : is_safe "SELECT updated_at FROM t".data = true := by decide
example : is_safe "SELECT 1; DROP TABLE t".data = false := by decide
example : is_safe "delete from customers".data = false := by decide
example : is_safe "DELETEX FROM t".data = true := by decide
example : extract_sql " <SQL> SELECT 1 </sql> tail".data = "SELECT 1".data := by decide
example : extract_sql "  no tags here  ".data = "no tags here".data := by decide
example : extract_sql "<sql>a</sql><sql>b</sql>".data = "a".data := by decide

/-- Helper: `find?` over `range n` returns exactly the least number below `n`
satisfying the predicate. -/
theorem find?_range_eq_some {p : Nat → Bool} {n k : Nat} :
    (List.range n).find? p = some k ↔
      k < n ∧ p k = true ∧ ∀ m, m < k → p m = false := by
  rw [List.find?_eq_some]
  constructor
  · rintro ⟨hb, as, bs, hsplit, hall⟩
    have hlen : n = as.length + (1 + bs.length) := by
      have := congrArg List.length hsplit
      simp [List.length_append] at this
      omega
    have hkn : as.length < n := by omega
    have hk : k = as.length := by
      have h1 : (List.range n)[as.length]? = some as.length :=
        List.getElem?_range hkn
      have h2 : (List.range n)[as.length]? = some k := by
        rw [hsplit, List.getElem?_append_right (Nat.le_refl _), Nat.sub_self,
          ← List.head?_eq_getElem?]
        rfl
      rw [h1] at h2
      exact (Option.some.inj h2).symm
    subst hk
    refine ⟨hkn, hb, fun m hm => ?_⟩
    have h1 : (List.range n)[m]? = some m := List.getElem?_range (by omega)
    have h2 : (List.range n)[m]? = as[m]? := by
      rw [hsplit, List.getElem?_append_left hm]
    have hmem : m ∈ as := by
      rw [h1] at h2
      exact List.getElem?_mem h2.symm
    have := hall m hmem
    rwa [Bool.not_eq_true'] at this
  · rintro ⟨hkn, hpk, hmin⟩
    refine ⟨hpk, List.range k, ((List.range (n - (k + 1))).map ((k + 1) + ·)), ?_, ?_⟩
    · have hn : n = (k + 1) + (n - (k + 1)) := by omega
      conv_lhs => rw [hn]
      rw [List.range_add, List.range_succ, List.append_assoc]
      rfl
    · intro a ha
      rw [List.mem_range] at ha
      rw [hmin a ha]
      rfl

/-- Helper: a case-insensitive occurrence of a non-empty pattern forces the
position to lie strictly inside the text. -/
theorem ciAt_lt_length {t : List Char} {i : Nat} {pat : List Char}
    (hne : pat ≠ []) (h : ciAt t i pat = true) : i < t.length := by
  rw [ciAt, decide_eq_true_eq] at h
  by_contra hge
  rw [List.drop_eq_nil_of_le (by omega)] at h
  simp only [List.take_nil, List.map_nil] at h
  exact hne h.symm

/-- C3: when the input contains a case-insensitive `<sql>...</sql>` tag pair,
`extract_sql` returns exactly the inner text of the first such pair trimmed of
surrounding whitespace; when it contains none, `extract_sql` returns the
trimmed input unchanged (fallback, not an error). -/
theorem extract_sql_spec (t : List Char) :
    ((∃ i j, PairAt t i j) →
      ∃ i j, IsFirstPair t i j ∧
        extract_sql t = pyStrip ((t.drop (i + 5)).take (j - (i + 5)))) ∧
    ((¬ ∃ i j, PairAt t i j) → extract_sql t = pyStrip t) := by
  constructor
  · rintro ⟨i0, j0, hopen0, hclose0, hij0⟩
    have hj0lt : j0 < t.length := ciAt_lt_length (by decide) hclose0
    have hsome : ((List.range (t.length + 1)).find? fun i =>
        ciAt t i tagOpen && (findFrom t (i + 5) tagClose).isSome).isSome := by
      rw [List.find?_isSome]
      refine ⟨i0, ?_, ?_⟩
      · rw [List.mem_range]
        have := ciAt_lt_length (by decide) hopen0
        omega
      · rw [Bool.and_eq_true]
        refine ⟨hopen0, ?_⟩
        rw [findFrom, List.find?_isSome]
        refine ⟨j0, by rw [List.mem_range]; omega, ?_⟩
        rw [Bool.and_eq_true, decide_eq_true_eq]
        exact ⟨hij0, hclose0⟩
    obtain ⟨i, hfind⟩ := Option.isSome_iff_exists.mp hsome
    have hfacts := find?_range_eq_some.mp hfind
    obtain ⟨hin, hpi, hmini⟩ := hfacts
    rw [Bool.and_eq_true] at hpi
    obtain ⟨hopeni, hsomej⟩ := hpi
    obtain ⟨j, hfindj⟩ := Option.isSome_iff_exists.mp hsomej
    have hjfacts := find?_range_eq_some.mp (by rw [findFrom] at hfindj; exact hfindj)
    obtain ⟨hjn, hpj, hminj⟩ := hjfacts
    rw [Bool.and_eq_true, decide_eq_true_eq] at hpj
    obtain ⟨hij, hclosej⟩ := hpj
    have hfp : firstPair t = some (i, j) := by
      rw [firstPair, hfind, Option.some_bind, hfindj, Option.map_some']
    refine ⟨i, j, ⟨⟨hopeni, hclosej, hij⟩, ?_, ?_⟩, ?_⟩
    · rintro i' j' ⟨hopen', hclose', hij'⟩
      by_contra hlt
      have hfalse := hmini i' (by omega)
      rw [Bool.and_eq_false_iff] at hfalse
      rcases hfalse with hfalse | hfalse
      · rw [hopen'] at hfalse; cases hfalse
      · have : (findFrom t (i' + 5) tagClose).isSome := by
          rw [findFrom, List.find?_isSome]
          have hj'lt : j' < t.length := ciAt_lt_length (by decide) hclose'
          refine ⟨j', by rw [List.mem_range]; omega, ?_⟩
          rw [Bool.and_eq_true, decide_eq_true_eq]
          exact ⟨hij', hclose'⟩
        rw [hfalse] at this
        cases this
    · intro j' hclose' hij'
      by_contra hlt
      have hfalse := hminj j' (by omega)
      rw [Bool.and_eq_false_iff] at hfalse
      rcases hfalse with hfalse | hfalse
      · rw [decide_eq_false_iff_not] at hfalse; exact hfalse hij'
      · rw [hclose'] at hfalse; cases hfalse
    · rw [extract_sql, hfp]
  · intro hno
    rcases hfp : firstPair t with _ | ⟨i, j⟩
    · rw [extract_sql, hfp]
    · exfalso
      rw [firstPair, Option.bind_eq_some] at hfp
      obtain ⟨i', hfind', hmap'⟩ := hfp
      rw [Option.map_eq_some'] at hmap'
      obtain ⟨j', hfindj', hpair⟩ := hmap'
      obtain ⟨hin', hpi', -⟩ := find?_range_eq_some.mp hfind'
      rw [Bool.and_eq_true] at hpi'
      obtain ⟨hopen', -⟩ := hpi'
      obtain ⟨hjn', hpj', -⟩ :=
        find?_range_eq_some.mp (by rw [findFrom] at hfindj'; exact hfindj')
      rw [Bool.and_eq_true, decide_eq_true_eq] at hpj'
      exact hno ⟨i', j', hopen', hpj'.2, hpj'.1⟩

/-- Witness for C3 at a concrete input carrying a tag pair. -/
theorem extract_sql_spec_witness :
    ∃ i j, IsFirstPair "<sql> SELECT 1 </sql>".data i j ∧
      extract_sql "<sql> SELECT 1 </sql>".data =
        pyStrip ((("<sql> SELECT 1 </sql>".data).drop (i + 5)).take (j - (i + 5))) :=
  (extract_sql_spec ("<sql> SELECT 1 </sql>".data)).1 ⟨0, 15, by decide, by decide, by decide⟩

/-- C5: for `page_size ≥ 1` the reported `total_pages` equals the rational
ceiling `⌈total / page_size⌉`, and `total_rows = 0` yields `total_pages = 0`. -/
theorem total_pages_spec (t p : Nat) (h : 1 ≤ p) :
    ((total_pages t p : ℤ) = ⌈(t : ℚ) / (p : ℚ)⌉) ∧
      (t = 0 → total_pages t p = 0) := by
  have hp : (0 : ℚ) < (p : ℚ) := by exact_mod_cast (by omega : 0 < p)
  constructor
  · symm
    rw [Int.ceil_eq_iff]
    have hdm := Nat.div_add_mod (t + p - 1) p
    have hmod := Nat.mod_lt (t + p - 1) (show 0 < p by omega)
    rw [total_pages]
    set q := (t + p - 1) / p with hq
    set r := (t + p - 1) % p with hr
    have hcast : (p : ℚ) * (q : ℚ) + (r : ℚ) = (t : ℚ) + (p : ℚ) - 1 := by
      have h1 : ((p * q + r : ℕ) : ℚ) = ((t + p - 1 : ℕ) : ℚ) := by
        exact_mod_cast congrArg (Nat.cast : ℕ → ℚ) hdm
      push_cast [Nat.cast_sub (show 1 ≤ t + p by omega)] at h1
      linarith [h1]
    have hrq : (0 : ℚ) ≤ (r : ℚ) := by positivity
    have hrlt : (r : ℚ) ≤ (p : ℚ) - 1 := by
      have h1 : r + 1 ≤ p := hmod
      have h2 : (r : ℚ) + 1 ≤ (p : ℚ) := by exact_mod_cast h1
      linarith
    constructor
    · push_cast
      rw [lt_div_iff₀ hp]
      nlinarith [hcast, hrq]
    · push_cast
      rw [div_le_iff₀ hp]
      nlinarith [hcast, hrlt]
  · intro ht
    subst ht
    rw [total_pages]
    exact Nat.div_eq_of_lt (by omega)

/-- Witness for C5 at `total_rows = 100`, `page_size = 50`. -/
theorem total_pages_spec_witness :
    1 ≤ 50 ∧ (((total_pages 100 50 : ℤ) = ⌈(100 : ℚ) / (50 : ℚ)⌉) ∧
      (100 = 0 → total_pages 100 50 = 0)) :=
  ⟨by decide, total_pages_spec 100 50 (by decide)⟩

/-- C10: the request model accepts `page_size = 0`, for which the
pagination-metadata computation takes the division-by-zero error branch; the
computation is well-defined whenever `page_size ≥ 1`. -/
theorem total_pages_py_guard :
    (queryBodyAccepts 1 0 = true ∧ total_pages_py 0 0 = none) ∧
      ∀ total pageSize : Int, 1 ≤ pageSize →
        (total_pages_py total pageSize).isSome = true := by
  refine ⟨⟨rfl, rfl⟩, fun total pageSize h => ?_⟩
  rw [total_pages_py, pyFloorDiv, if_neg (by omega)]
  rfl

/-- Witness for C10's well-definedness clause at `total = 100`,
`page_size = 50`. -/
theorem total_pages_py_guard_witness :
    1 ≤ (50 : Int) ∧ (total_pages_py 100 50).isSome = true :=
  ⟨by decide, total_pages_py_guard.2 100 50 (by decide)⟩

/-- C2: when the extracted SQL fails either validation check, both pipelines
answer with the one uniform `HTTPException(400, "Unsafe or invalid SQL
generated")` — the same signal whichever check failed — and issue no database
execution, no job-record insert, and no queue message. -/
theorem validation_reject_uniform (content : List Char) (dbc : Dep Db)
    (page pageSize : Nat) (keyBase jobId : List Char)
    (h : startsSelect (extract_sql content) = false ∨
      is_safe (extract_sql content) = false) :
    queryPipeline true (.ok content) dbc page pageSize = (.http 400 unsafeDetail, []) ∧
      exportPipeline true (.ok content) keyBase jobId = (.http 400 unsafeDetail, []) := by
  rcases h with h | h <;>
    simp [queryPipeline, exportPipeline, h]

/-- Witness for C2 at the concrete model output
`<sql>DELETE FROM customers</sql>`. -/
theorem validation_reject_uniform_witness :
    (startsSelect (extract_sql "<sql>DELETE FROM customers</sql>".data) = false ∨
      is_safe (extract_sql "<sql>DELETE FROM customers</sql>".data) = false) ∧
    (queryPipeline true (.ok ("<sql>DELETE FROM customers</sql>".data)) (.ok trivialDb) 1 50 =
        (.http 400 unsafeDetail, []) ∧
      exportPipeline true (.ok ("<sql>DELETE FROM customers</sql>".data))
          ("exports".data) ("job-1".data) = (.http 400 unsafeDetail, [])) :=
  ⟨Or.inr (by decide),
    validation_reject_uniform _ (.ok trivialDb) 1 50 ("exports".data) ("job-1".data)
      (Or.inr (by decide))⟩

/-- C6: on every successful `/export/start` run the PENDING job record, with
the generated `jobId` and the derived key `{EXPORT_PREFIX}/{job_id}.csv`, is
persisted strictly before the queue message carrying `{job_id, sql, s3_key}`
is sent: the effect trace is exactly insert-then-send. -/
theorem export_record_before_send (content keyBase jobId : List Char)
    (h1 : startsSelect (extract_sql content) = true)
    (h2 : is_safe (extract_sql content) = true) :
    exportPipeline true (.ok content) keyBase jobId =
      (.ok (jobId, "PENDING".data),
       [.insertJob jobId "PENDING".data (keyBase ++ "/".data ++ jobId ++ ".csv".data),
        .sendMessage jobId (extract_sql content)
          (keyBase ++ "/".data ++ jobId ++ ".csv".data)]) := by
  simp [exportPipeline, h1, h2]

/-- Witness for C6 at the concrete model output
`<sql>SELECT * FROM customers</sql>`. -/
theorem export_record_before_send_witness :
    (startsSelect (extract_sql "<sql>SELECT * FROM customers</sql>".data) = true ∧
      is_safe (extract_sql "<sql>SELECT * FROM customers</sql>".data) = true) ∧
    exportPipeline true (.ok ("<sql>SELECT * FROM customers</sql>".data))
        ("exports".data) ("job-1".data) =
      (.ok ("job-1".data, "PENDING".data),
       [.insertJob ("job-1".data) "PENDING".data
          ("exports".data ++ "/".data ++ "job-1".data ++ ".csv".data),
        .sendMessage ("job-1".data)
          (extract_sql "<sql>SELECT * FROM customers</sql>".data)
          ("exports".data ++ "/".data ++ "job-1".data ++ ".csv".data)]) :=
  ⟨⟨by decide, by decide⟩,
    export_record_before_send _ ("exports".data) ("job-1".data) (by decide) (by decide)⟩

/-- C9: the `/query` handler catches neither a generation failure nor a
database failure: the raised exception (with its raw message) leaves the
pipeline unhandled instead of being re-expressed as a structured 502/503
response.  Evaluated at the failing inputs of `tests/test_api.py`
(`Exception("API error")`, `Exception("connection timeout")`). -/
theorem query_dependency_failure_unhandled :
    queryPipeline true (.raises ("API error".data)) (.ok trivialDb) 1 50 =
      (.unhandled ("API error".data), []) ∧
    queryPipeline true (.ok ("<sql>SELECT 1</sql>".data))
        (.raises ("connection timeout".data)) 1 50 =
      (.unhandled ("connection timeout".data), []) := by
  constructor
  · rfl
  · simp [queryPipeline, show startsSelect (extract_sql "<sql>SELECT 1</sql>".data) = true
      by decide, show is_safe (extract_sql "<sql>SELECT 1</sql>".data) = true by decide]

/-- C1: `is_safe sql` returns `false` if and only if `sql` contains a
whole-word, case-insensitive occurrence of one of the mutating keywords
(word boundary on both sides); consequently a keyword occurring only as a
substring of a longer identifier (as in `updated_at`) leaves `is_safe`
returning `true`. -/
theorem is_safe_false_iff (s : List Char) :
    is_safe s = false ↔ HasMutatingWholeWord s := by
  rw [is_safe, Bool.not_eq_false']
  constructor
  · intro h
    rw [hasWriteKeyword, List.any_eq_true] at h
    obtain ⟨i, hmem, h⟩ := h
    rw [List.any_eq_true] at h
    obtain ⟨kw, hkw, hm⟩ := h
    rw [List.mem_range] at hmem
    have hi : i ≤ s.length := by omega
    simp only [matchKWAt, Bool.and_eq_true, Bool.or_eq_true, decide_eq_true_eq,
      beq_iff_eq, Bool.not_eq_true'] at hm
    obtain ⟨⟨h1, h2⟩, h3⟩ := hm
    refine ⟨s.take i, (s.drop i).take kw.length, s.drop (i + kw.length), ?_, ?_, ?_, ?_⟩
    · conv_lhs => rw [← List.take_append_drop i s]
      rw [List.append_assoc]
      congr 1
      conv_lhs => rw [← List.take_append_drop kw.length (s.drop i)]
      rw [List.drop_drop]
    · rw [h1]; exact hkw
    · intro c hc
      rcases h2 with h2 | h2
      · subst h2; simp at hc
      · have h1lei : 1 ≤ i := by
          by_contra hlt
          have : i = 0 := by omega
          subst this
          simp at hc
        rw [getLast?_take_eq s i h1lei hi] at hc
        rw [List.getD_eq_getElem?_getD, hc] at h2
        exact h2
    · intro c hc
      rcases h3 with h3 | h3
      · rw [List.drop_eq_nil_of_le h3] at hc; simp at hc
      · rw [List.head?_eq_getElem?, List.getElem?_drop, Nat.add_zero] at hc
        rw [List.getD_eq_getElem?_getD, hc] at h3
        exact h3
  · rintro ⟨pre, w, post, rfl, hkw, hpre, hpost⟩
    rw [hasWriteKeyword, List.any_eq_true]
    refine ⟨pre.length, ?_, ?_⟩
    · rw [List.mem_range]
      have : pre.length ≤ (pre ++ w ++ post).length := by
        simp [List.length_append]
      omega
    · rw [List.any_eq_true]
      refine ⟨w.map Char.toLower, hkw, ?_⟩
      simp only [matchKWAt, Bool.and_eq_true, Bool.or_eq_true, decide_eq_true_eq,
        beq_iff_eq, Bool.not_eq_true']
      have hlen : (w.map Char.toLower).length = w.length := List.length_map w Char.toLower
      refine ⟨⟨?_, ?_⟩, ?_⟩
      · rw [List.append_assoc, List.drop_left, hlen, List.take_left]
      · by_cases hp : pre = []
        · left; simp [hp]
        · right
          have h1 : 1 ≤ pre.length := by
            cases pre with
            | nil => exact absurd rfl hp
            | cons a l => simp
          have hgl : pre.getLast? = some (pre.getLast hp) :=
            List.getLast?_eq_getLast_of_ne_nil hp
          have hidx : (pre ++ w ++ post)[pre.length - 1]? = pre[pre.length - 1]? := by
            rw [List.append_assoc, List.getElem?_append_left (by omega)]
          have hglidx : pre[pre.length - 1]? = some (pre.getLast hp) := by
            rw [← List.getLast?_eq_getElem?, hgl]
          rw [List.getD_eq_getElem?_getD, hidx, hglidx]
          exact hpre _ hgl
      · by_cases hq : post = []
        · left
          subst hq
          simp [List.length_append, hlen]
        · right
          have hhd : post.head? = some (post.head hq) := List.head?_eq_head hq
          have hidx : (pre ++ w ++ post)[pre.length + (w.map Char.toLower).length]? =
              some (post.head hq) := by
            rw [hlen, ← List.length_append pre w,
              List.getElem?_append_right (Nat.le_refl _), Nat.sub_self,
              ← List.head?_eq_getElem?, hhd]
          rw [List.getD_eq_getElem?_getD, hidx]
          exact hpost _ hhd

/-- Concrete exception with a 100000-character message for the C7
counterexample. -/
def c7Exn : PyExn :=
  ⟨"ValueError".data, List.replicate 100000 'a', "tb".data⟩

/-- Counterexample for C7 as stated: the persisted diagnostic's total length
is not bounded by ~1500 characters.  With an exception message of 100000
characters the FAILED write persists a diagnostic longer than 100000
characters, because only the traceback slice is truncated. -/
theorem worker_error_unbounded :
    (lambda_handler (.error c7Exn) 0 1).1 =
      [⟨"IN_PROGRESS".data, some 0, none, none, none⟩,
       ⟨"FAILED".data, none, some 1, none, some (workerErrorText c7Exn)⟩] ∧
    100000 < (workerErrorText c7Exn).length := by
  constructor
  · rfl
  · simp only [c7Exn, workerErrorText, List.length_append, List.length_take,
      List.length_replicate]
    norm_num [show ("ValueError".data).length = 10 from rfl,
      show (": ".data).length = 2 from rfl, show ("\n".data).length = 1 from rfl,
      show ("tb".data).length = 2 from rfl]

/-- C7 (amended): on any exception during the job's execution sequence the
worker writes FAILED with a finish timestamp and a non-empty diagnostic whose
traceback component is truncated to at most 1500 characters (the exception
class and message are not truncated, so the total length is unbounded), and
re-raises the same exception rather than swallowing it. -/
theorem worker_failure_records_and_reraises (e : PyExn) (t0 t1 : Nat) :
    lambda_handler (.error e) t0 t1 =
      ([⟨"IN_PROGRESS".data, some t0, none, none, none⟩,
        ⟨"FAILED".data, none, some t1, none, some (workerErrorText e)⟩], some e) ∧
    workerErrorText e ≠ [] ∧
    (e.tb.take 1500).length ≤ 1500 := by
  refine ⟨rfl, ?_, ?_⟩
  · have h2 : (": ".data).length = 2 := rfl
    have hlen : 0 < (workerErrorText e).length := by
      simp only [workerErrorText, List.length_append, h2]
      omega
    exact List.ne_nil_of_length_pos hlen
  · rw [List.length_take]
    exact Nat.min_le_left _ _

/-- C8 evaluation at the failing input: a message whose first delivery fails
(recording a diagnostic in `error`) and whose redelivery succeeds leaves the
record with status SUCCESS *and* the stale FAILED-run `error` text, because
`update_job_status` never clears columns it is not passed.  This is the mixed
state the claim (and the spec's idempotence property) rules out. -/
theorem replay_mixed_success_error_state :
    ((runWorker (runWorker c8Job (.error c8Exn) 10 11).1 (.ok 42) 20 21).1).status =
        "SUCCESS".data ∧
      ((runWorker (runWorker c8Job (.error c8Exn) 10 11).1 (.ok 42) 20 21).1).error =
        some (workerErrorText c8Exn) := by
  constructor
  · rfl
  · rfl

/-- Helper: packing a valid codepoint and unpacking it is the identity. -/
theorem char_toNat_ofNat {n : Nat} (h : n.isValidChar) : (Char.ofNat n).toNat = n := by
  rw [Char.ofNat, dif_pos h]
  rfl

/-- Helper: a scalar value is below the surrogate range or above it. -/
theorem char_valid_range (c : Char) :
    c.toNat < 55296 ∨ (57343 < c.toNat ∧ c.toNat < 1114112) :=
  c.valid

/-- Helper: `hexVal` inverts `hexDigit` on one hex digit. -/
theorem hexVal_hexDigit : ∀ x, x < 16 → hexVal (hexDigit x) = some x := by decide

/-- Helper: `skipWs` does not move past a non-whitespace head. -/
theorem skipWs_cons_not {c : Char} (h : isWs c = false) (l : List Char) :
    skipWs (c :: l) = c :: l := by
  simp [skipWs, h]

/-- Helper: `hex4Val` reads back the four hex digits of `m < 0x10000`. -/
theorem hex4Val_digits (m : Nat) (h1 : m < 65536) :
    hex4Val (hexDigit (m / 4096 % 16)) (hexDigit (m / 256 % 16))
      (hexDigit (m / 16 % 16)) (hexDigit (m % 16)) = some m := by
  rw [hex4Val, hexVal_hexDigit _ (by omega), hexVal_hexDigit _ (by omega),
    hexVal_hexDigit _ (by omega), hexVal_hexDigit _ (by omega)]
  simp only []
  congr 1
  omega

/-- Helper: the parser decodes one `\uXXXX` escape of a non-surrogate
codepoint. -/
theorem parseStringBody_u_escape (m : Nat) (h1 : m < 65536)
    (hsur : ¬(55296 ≤ m ∧ m ≤ 57343)) (t : List Char) :
    parseStringBody (('\\' :: 'u' :: hex4 m) ++ t) =
      (parseStringBody t).map fun p => (Char.ofNat m :: p.1, p.2) := by
  show parseStringBody ('\\' :: 'u' :: hexDigit (m / 4096 % 16) :: hexDigit (m / 256 % 16)
      :: hexDigit (m / 16 % 16) :: hexDigit (m % 16) :: t) = _
  rw [parseStringBody, if_neg (by decide), if_pos rfl, parseEscape, if_pos rfl,
    parseUnicodeEscape, hex4Val_digits m h1]
  simp only []
  rw [if_neg (by omega), if_neg (by omega)]

/-- Helper: the parser decodes a surrogate pair back to the supplementary
codepoint `0x10000 + v`. -/
theorem parseStringBody_u_pair (v : Nat) (h : v < 1048576) (t : List Char) :
    parseStringBody (('\\' :: 'u' :: hex4 (55296 + v / 1024))
        ++ ('\\' :: 'u' :: hex4 (56320 + v % 1024)) ++ t) =
      (parseStringBody t).map fun p => (Char.ofNat (65536 + v) :: p.1, p.2) := by
  have hdiv : v / 1024 < 1024 := by omega
  simp only [hex4, List.cons_append, List.nil_append]
  rw [parseStringBody, if_neg (by decide), if_pos rfl, parseEscape, if_pos rfl,
    parseUnicodeEscape, hex4Val_digits (55296 + v / 1024) (by omega)]
  simp only []
  rw [if_pos (by omega), parseLowSurrogate, hex4Val_digits (56320 + v % 1024) (by omega)]
  simp only []
  rw [if_pos (by omega)]
  have hcode : 65536 + (55296 + v / 1024 - 55296) * 1024 + (56320 + v % 1024 - 56320)
      = 65536 + v := by omega
  rw [hcode]

/-- Helper: the string parser decodes the `json.dumps` escape of a whole
string, consuming the closing quote. -/
theorem parseStringBody_escape (s rest : List Char) :
    parseStringBody (escapeList s ++ '"' :: rest) = some (s, rest) := by
  induction s with
  | nil =>
    show parseStringBody ('"' :: rest) = some ([], rest)
    rw [parseStringBody, if_pos rfl]
  | cons c cs ih =>
    show parseStringBody ((escapeChar c ++ escapeList cs) ++ '"' :: rest) = _
    rw [List.append_assoc, escapeChar]
    by_cases h1 : c = '"'
    · rw [if_pos h1]
      subst h1
      show parseStringBody ('\\' :: '"' :: (escapeList cs ++ '"' :: rest)) = _
      rw [parseStringBody, if_neg (by decide), if_pos rfl, parseEscape,
        if_neg (by decide)]
      simp only [simpleEscape, reduceIte]
      rw [ih]
      rfl
    rw [if_neg h1]
    by_cases h2 : c = '\\'
    · rw [if_pos h2]
      subst h2
      show parseStringBody ('\\' :: '\\' :: (escapeList cs ++ '"' :: rest)) = _
      rw [parseStringBody, if_neg (by decide), if_pos rfl, parseEscape,
        if_neg (by decide)]
      simp only [simpleEscape, reduceIte]
      rw [ih]
      rfl
    rw [if_neg h2]
    by_cases h3 : c = '\n'
    · rw [if_pos h3]
      subst h3
      show parseStringBody ('\\' :: 'n' :: (escapeList cs ++ '"' :: rest)) = _
      rw [parseStringBody, if_neg (by decide), if_pos rfl, parseEscape,
        if_neg (by decide)]
      simp only [simpleEscape, reduceIte]
      rw [ih]
      rfl
    rw [if_neg h3]
    by_cases h4 : c = '\r'
    · rw [if_pos h4]
      subst h4
      show parseStringBody ('\\' :: 'r' :: (escapeList cs ++ '"' :: rest)) = _
      rw [parseStringBody, if_neg (by decide), if_pos rfl, parseEscape,
        if_neg (by decide)]
      simp only [simpleEscape, reduceIte]
      rw [ih]
      rfl
    rw [if_neg h4]
    by_cases h5 : c = '\t'
    · rw [if_pos h5]
      subst h5
      show parseStringBody ('\\' :: 't' :: (escapeList cs ++ '"' :: rest)) = _
      rw [parseStringBody, if_neg (by decide), if_pos rfl, parseEscape,
        if_neg (by decide)]
      simp only [simpleEscape, reduceIte]
      rw [ih]
      rfl
    rw [if_neg h5]
    by_cases h6 : c.toNat = 8
    · rw [if_pos h6]
      show parseStringBody ('\\' :: 'b' :: (escapeList cs ++ '"' :: rest)) = _
      rw [parseStringBody, if_neg (by decide), if_pos rfl, parseEscape,
        if_neg (by decide)]
      simp only [simpleEscape, reduceIte]
      rw [ih]
      have : Char.ofNat 8 = c := by rw [← h6, Char.ofNat_toNat]
      rw [this]
      rfl
    rw [if_neg h6]
    by_cases h7 : c.toNat = 12
    · rw [if_pos h7]
      show parseStringBody ('\\' :: 'f' :: (escapeList cs ++ '"' :: rest)) = _
      rw [parseStringBody, if_neg (by decide), if_pos rfl, parseEscape,
        if_neg (by decide)]
      simp only [simpleEscape, reduceIte]
      rw [ih]
      have : Char.ofNat 12 = c := by rw [← h7, Char.ofNat_toNat]
      rw [this]
      rfl
    rw [if_neg h7]
    by_cases h8 : c.toNat < 32 ∨ 127 ≤ c.toNat
    · rw [if_pos h8]
      by_cases h9 : c.toNat < 65536
      · rw [if_pos h9]
        have hsur : ¬(55296 ≤ c.toNat ∧ c.toNat ≤ 57343) := by
          rcases char_valid_range c with hv | hv
          · omega
          · omega
        rw [parseStringBody_u_escape c.toNat h9 hsur, ih, Char.ofNat_toNat]
        rfl
      · rw [if_neg h9]
        have hrange : c.toNat - 65536 < 1048576 := by
          rcases char_valid_range c with hv | hv
          · omega
          · omega
        rw [parseStringBody_u_pair (c.toNat - 65536) hrange, ih]
        have : 65536 + (c.toNat - 65536) = c.toNat := by omega
        rw [this, Char.ofNat_toNat]
        rfl
    · rw [if_neg h8]
      show parseStringBody (c :: (escapeList cs ++ '"' :: rest)) = _
      rw [parseStringBody, if_neg h1, if_neg h2, if_neg (by omega), ih]
      rfl

/-- Helper: decimal digit characters are digits. -/
theorem digitChar_isDigit : ∀ d, d < 10 → (digitChar d).isDigit = true := by decide

/-- Helper: the decimal value of a digit character. -/
theorem digitChar_toNat : ∀ d, d < 10 → (digitChar d).toNat = 48 + d := by decide

/-- Helper: nonzero digits are not the zero character. -/
theorem digitChar_ne_zero : ∀ d, d < 10 → 0 < d → digitChar d ≠ '0' := by decide

/-- Helper: `natDigits 0` is the single zero digit. -/
theorem natDigits_zero : natDigits 0 = ['0'] := by
  rw [natDigits]
  decide

/-- Helper: `natDigits` is never empty. -/
theorem natDigits_ne_nil (n : Nat) : natDigits n ≠ [] := by
  rw [natDigits]
  by_cases h : n < 10
  · rw [dif_pos h]; simp
  · rw [dif_neg h]; simp

/-- Helper: every character of `natDigits` is a decimal digit. -/
theorem natDigits_digits (n : Nat) : ∀ c ∈ natDigits n, c.isDigit = true := by
  induction n using Nat.strong_induction_on with
  | _ n ih =>
    rw [natDigits]
    by_cases h : n < 10
    · rw [dif_pos h]
      intro c hc
      simp at hc
      rw [hc]
      exact digitChar_isDigit n h
    · rw [dif_neg h]
      intro c hc
      rw [List.mem_append] at hc
      rcases hc with hc | hc
      · exact ih (n / 10) (Nat.div_lt_self (by omega) (by omega)) c hc
      · simp at hc
        rw [hc]
        exact digitChar_isDigit (n % 10) (Nat.mod_lt n (by omega))

/-- Helper: the leading digit of a positive number is not `0`. -/
theorem natDigits_head_ne_zero (n : Nat) (h : 0 < n) :
    ∀ c, (natDigits n).head? = some c → c ≠ '0' := by
  induction n using Nat.strong_induction_on with
  | _ n ih =>
    rw [natDigits]
    by_cases h10 : n < 10
    · rw [dif_pos h10]
      intro c hc
      simp at hc
      rw [← hc]
      exact digitChar_ne_zero n h10 h
    · rw [dif_neg h10]
      intro c hc
      rw [List.head?_append_of_ne_nil _ (natDigits_ne_nil (n / 10))] at hc
      exact ih (n / 10) (Nat.div_lt_self (by omega) (by omega)) (by omega) c hc

/-- Helper: `digitsToNat` evaluates an appended digit. -/
theorem digitsToNat_append (xs : List Char) (c : Char) :
    digitsToNat (xs ++ [c]) = 10 * digitsToNat xs + (c.toNat - 48) := by
  simp [digitsToNat, List.foldl_append]
  omega

/-- Helper: `digitsToNat` inverts `natDigits`. -/
theorem digitsToNat_natDigits (n : Nat) : digitsToNat (natDigits n) = n := by
  induction n using Nat.strong_induction_on with
  | _ n ih =>
    rw [natDigits]
    by_cases h : n < 10
    · rw [dif_pos h]
      show digitsToNat ([] ++ [digitChar n]) = n
      rw [digitsToNat_append, digitChar_toNat n h]
      simp [digitsToNat]
    · rw [dif_neg h]
      rw [digitsToNat_append, ih (n / 10) (Nat.div_lt_self (by omega) (by omega)),
        digitChar_toNat (n % 10) (Nat.mod_lt n (by omega))]
      omega

/-- Helper: `takeDigits` splits a digit run off a non-digit continuation. -/
theorem takeDigits_append (ds rest : List Char)
    (hds : ∀ c ∈ ds, c.isDigit = true)
    (hrest : ∀ c, rest.head? = some c → c.isDigit = false) :
    takeDigits (ds ++ rest) = (ds, rest) := by
  induction ds with
  | nil =>
    simp only [List.nil_append]
    cases rest with
    | nil => rfl
    | cons c r =>
      rw [takeDigits, if_neg (by simp [hrest c rfl])]
  | cons d ds' ih =>
    rw [List.cons_append, takeDigits, if_pos (hds d (by simp))]
    simp only []
    rw [ih (fun c hc => hds c (by simp [hc]))]

/-- Helper: the number parser inverts Python's int formatting when the
continuation does not begin with a digit. -/
theorem parseNumber_intDigits (n : Int) (rest : List Char)
    (hrest : ∀ c, rest.head? = some c → c.isDigit = false) :
    parseNumber (intDigits n ++ rest) = some (n, rest) := by
  have hndig : ∀ m : Nat, takeDigits (natDigits m ++ rest) = (natDigits m, rest) :=
    fun m => takeDigits_append _ _ (natDigits_digits m) hrest
  have hlead : ∀ m : Nat,
      (2 ≤ (natDigits m).length ∧ (natDigits m).head? = some '0') → False := by
    intro m hc
    rcases hc with ⟨hlen, hhead⟩
    have hm : 0 < m := by
      by_contra hz
      have : m = 0 := by omega
      subst this
      rw [natDigits_zero] at hlen
      simp at hlen
    exact natDigits_head_ne_zero m hm '0' hhead rfl
  have hempty : ∀ m : Nat, (natDigits m).isEmpty = false := by
    intro m
    cases hnn : natDigits m with
    | nil => exact absurd hnn (natDigits_ne_nil m)
    | cons a l => rfl
  rw [intDigits]
  by_cases hn : n < 0
  · rw [if_pos hn]
    have hhead : (('-' :: natDigits n.natAbs) ++ rest).head? = some '-' := rfl
    rw [parseNumber, if_pos hhead]
    simp only [List.cons_append, List.tail_cons, hndig n.natAbs]
    rw [if_neg (by simp [hempty]), if_neg (fun hc => hlead n.natAbs hc)]
    have hval : -((digitsToNat (natDigits n.natAbs) : Nat) : Int) = n := by
      rw [digitsToNat_natDigits]
      omega
    rw [hval]
  · rw [if_neg hn]
    have hne := natDigits_ne_nil n.toNat
    have hhead : ((natDigits n.toNat ++ rest)).head? ≠ some '-' := by
      rw [List.head?_append_of_ne_nil _ hne]
      cases hnn : natDigits n.toNat with
      | nil => exact absurd hnn hne
      | cons a l =>
        have ha : a.isDigit = true :=
          natDigits_digits n.toNat a (by rw [hnn]; simp)
        intro hc
        simp only [List.head?_cons, Option.some.injEq] at hc
        rw [hc] at ha
        cases ha
    rw [parseNumber, if_neg hhead]
    simp only [hndig n.toNat]
    rw [if_neg (by simp [hempty]), if_neg (fun hc => hlead n.toNat hc)]
    have hval : ((digitsToNat (natDigits n.toNat) : Nat) : Int) = n := by
      rw [digitsToNat_natDigits]
      omega
    rw [hval]

/-- Helper: a character that starts a JSON number is not whitespace and not
the first character of any other JSON value form. -/
theorem head_not_special {d : Char} (hd : d.isDigit = true ∨ d = '-') :
    isWs d = false ∧ d ≠ 'n' ∧ d ≠ 't' ∧ d ≠ 'f' ∧ d ≠ '"' ∧ d ≠ '[' ∧
      d ≠ '\x7b' := by
  have hne : ∀ x : Char, x.isDigit = false → x ≠ '-' → d ≠ x := by
    intro x hx hxm he
    rcases hd with hd | hd
    · rw [he, hx] at hd; cases hd
    · exact hxm (he.symm.trans hd)
  refine ⟨?_, hne 'n' (by decide) (by decide), hne 't' (by decide) (by decide),
    hne 'f' (by decide) (by decide), hne '"' (by decide) (by decide),
    hne '[' (by decide) (by decide), hne '\x7b' (by decide) (by decide)⟩
  simp [isWs, hne ' ' (by decide) (by decide), hne '\t' (by decide) (by decide),
    hne '\n' (by decide) (by decide), hne '\r' (by decide) (by decide)]

/-- Helper: a non-empty take from a list starting with `a` never equals a
list starting with a different character. -/
theorem take_ne_of_head {a b : Char} (hab : a ≠ b) (l xs : List Char) (k : Nat)
    (hk : 1 ≤ k) : ¬((a :: l).take k = b :: xs) := by
  intro hc
  have h1 : ((a :: l).take k).head? = some a := by
    cases k with
    | zero => omega
    | succ k => rfl
  rw [hc] at h1
  exact hab (Option.some.inj h1).symm

/-- Helper: on input starting with a digit or a minus sign, `parseVal` falls
through to the number parser. -/
theorem parseVal_num_fallthrough (d : Char) (tail : List Char) (fuel : Nat)
    (hd : d.isDigit = true ∨ d = '-') :
    parseVal (fuel + 1) (d :: tail) =
      (parseNumber (d :: tail)).map fun p => (.num p.1, p.2) := by
  obtain ⟨hws, hn, ht, hf, hq, hbr, hbc⟩ := head_not_special hd
  simp only [parseVal, skipWs_cons_not hws]
  rw [if_neg (take_ne_of_head hn tail _ 4 (by omega)),
    if_neg (take_ne_of_head ht tail _ 4 (by omega)),
    if_neg (take_ne_of_head hf tail _ 5 (by omega)), if_neg (by simp [hq]),
    if_neg (by simp [hbr]), if_neg (by simp [hbc])]

/-- Helper: `parseVal` decodes the `json.dumps` rendering of any scalar cell
value, provided the continuation does not begin with a digit. -/
theorem parseVal_jval (v : JVal) (rest : List Char) (fuel : Nat)
    (hrest : ∀ c, rest.head? = some c → c.isDigit = false) :
    parseVal (fuel + 1) (jvalDumps v ++ rest) = some (jsonOfJVal v, rest) := by
  cases v with
  | jnull =>
    show parseVal (fuel + 1) ('n' :: 'u' :: 'l' :: 'l' :: rest) = some (.null, rest)
    simp only [parseVal, skipWs_cons_not (show isWs 'n' = false by decide)]
    rw [if_pos (show List.take 4 ('n' :: 'u' :: 'l' :: 'l' :: rest) =
      ['n', 'u', 'l', 'l'] from rfl)]
    rfl
  | jbool b =>
    cases b with
    | true =>
      show parseVal (fuel + 1) ('t' :: 'r' :: 'u' :: 'e' :: rest) =
        some (.bool true, rest)
      simp only [parseVal, skipWs_cons_not (show isWs 't' = false by decide)]
      rw [if_neg (take_ne_of_head (by decide) _ _ 4 (by omega)),
        if_pos (show List.take 4 ('t' :: 'r' :: 'u' :: 'e' :: rest) =
          ['t', 'r', 'u', 'e'] from rfl)]
      rfl
    | false =>
      show parseVal (fuel + 1) ('f' :: 'a' :: 'l' :: 's' :: 'e' :: rest) =
        some (.bool false, rest)
      simp only [parseVal, skipWs_cons_not (show isWs 'f' = false by decide)]
      rw [if_neg (take_ne_of_head (by decide) _ _ 4 (by omega)),
        if_neg (take_ne_of_head (by decide) _ _ 4 (by omega)),
        if_pos (show List.take 5 ('f' :: 'a' :: 'l' :: 's' :: 'e' :: rest) =
          ['f', 'a', 'l', 's', 'e'] from rfl)]
      rfl
  | jstr s =>
    show parseVal (fuel + 1) (('"' :: escapeList s ++ ['"']) ++ rest) = _
    have harr : ('"' :: escapeList s ++ ['"']) ++ rest =
        '"' :: (escapeList s ++ '"' :: rest) := by
      simp
    rw [harr]
    simp only [parseVal, skipWs_cons_not (show isWs '"' = false by decide)]
    rw [if_neg (take_ne_of_head (by decide) _ _ 4 (by omega)),
      if_neg (take_ne_of_head (by decide) _ _ 4 (by omega)),
      if_neg (take_ne_of_head (by decide) _ _ 5 (by omega)),
      if_pos (show ('"' :: (escapeList s ++ '"' :: rest)).head? = some '"' from rfl)]
    simp only [List.tail_cons]
    rw [parseStringBody_escape]
    rfl
  | jint n =>
    show parseVal (fuel + 1) (intDigits n ++ rest) = some (.num n, rest)
    rw [intDigits]
    by_cases hn : n < 0
    · rw [if_pos hn]
      rw [show ('-' :: natDigits n.natAbs) ++ rest =
        '-' :: (natDigits n.natAbs ++ rest) from rfl]
      rw [parseVal_num_fallthrough '-' _ fuel (Or.inr rfl)]
      have hpn : parseNumber (intDigits n ++ rest) = some (n, rest) :=
        parseNumber_intDigits n rest hrest
      rw [intDigits, if_pos hn] at hpn
      rw [show ('-' :: natDigits n.natAbs) ++ rest =
        '-' :: (natDigits n.natAbs ++ rest) from rfl] at hpn
      rw [hpn]
      rfl
    · rw [if_neg hn]
      cases hnn : natDigits n.toNat with
      | nil => exact absurd hnn (natDigits_ne_nil n.toNat)
      | cons a l =>
        have ha : a.isDigit = true := natDigits_digits n.toNat a (by rw [hnn]; simp)
        rw [List.cons_append, parseVal_num_fallthrough a _ fuel (Or.inl ha),
          ← List.cons_append, ← hnn]
        have hpn : parseNumber (intDigits n ++ rest) = some (n, rest) :=
          parseNumber_intDigits n rest hrest
        rw [intDigits, if_neg hn] at hpn
        rw [hpn]
        rfl

/-- Helper: a leading space is invisible to the value parser. -/
theorem parseVal_cons_space (fuel : Nat) (l : List Char) :
    parseVal fuel (' ' :: l) = parseVal fuel l := by
  cases fuel with
  | zero => rfl
  | succ f =>
    simp only [parseVal]
    rw [show skipWs (' ' :: l) = skipWs l from by simp [skipWs, isWs]]

/-- Helper: a leading space is invisible to the element parser. -/
theorem parseElems_cons_space (fuel : Nat) (l : List Char) :
    parseElems fuel (' ' :: l) = parseElems fuel l := by
  cases fuel with
  | zero => rfl
  | succ f =>
    simp only [parseElems, parseVal_cons_space]

/-- Helper: the element parser reads back a `", "`-joined run of dumped
scalars up to the closing bracket. -/
theorem parseElems_jvals (vs : List JVal) (rest : List Char) (fuel : Nat)
    (hne : vs ≠ []) (hfuel : vs.length + 1 ≤ fuel) :
    parseElems fuel (sepJoinComSpace (vs.map jvalDumps) ++ ']' :: rest) =
      some (vs.map jsonOfJVal, rest) := by
  induction vs generalizing fuel with
  | nil => exact absurd rfl hne
  | cons v vs' ih =>
    obtain ⟨f, rfl⟩ : ∃ f, fuel = f + 1 := ⟨fuel - 1, by omega⟩
    simp only [List.length_cons] at hfuel
    obtain ⟨g, rfl⟩ : ∃ g, f = g + 1 := ⟨f - 1, by omega⟩
    cases vs' with
    | nil =>
      show parseElems (g + 1 + 1) (jvalDumps v ++ ']' :: rest) = _
      rw [parseElems, parseVal_jval v _ g
        (fun c hc => by
          simp only [List.head?_cons, Option.some.injEq] at hc
          rw [← hc]
          decide)]
      rw [Option.some_bind]
      simp only [skipWs_cons_not (show isWs ']' = false by decide)]
      rw [if_neg (by simp), if_pos (show (']' :: rest).head? = some ']' from rfl)]
      rfl
    | cons v2 vs'' =>
      show parseElems (g + 1 + 1)
        ((jvalDumps v ++ ", ".data ++ sepJoinComSpace ((v2 :: vs'').map jvalDumps))
          ++ ']' :: rest) = _
      rw [show (jvalDumps v ++ ", ".data ++ sepJoinComSpace ((v2 :: vs'').map jvalDumps))
          ++ ']' :: rest =
        jvalDumps v ++ (',' :: ' ' ::
          (sepJoinComSpace ((v2 :: vs'').map jvalDumps) ++ ']' :: rest)) from by
        simp]
      rw [parseElems, parseVal_jval v _ g
        (fun c hc => by
          simp only [List.head?_cons, Option.some.injEq] at hc
          rw [← hc]
          decide)]
      rw [Option.some_bind]
      simp only [skipWs_cons_not (show isWs ',' = false by decide)]
      rw [if_pos (show (',' :: ' ' :: (sepJoinComSpace ((v2 :: vs'').map jvalDumps)
        ++ ']' :: rest)).head? = some ',' from rfl)]
      simp only [List.tail_cons, parseElems_cons_space]
      rw [ih _ (by simp) (by simp only [List.length_cons] at hfuel ⊢; omega)]
      rfl

/-- Helper: every dumped scalar starts with a character that is neither
whitespace nor a closing bracket. -/
theorem jvalDumps_head (v : JVal) :
    ∃ d t, jvalDumps v = d :: t ∧ isWs d = false ∧ d ≠ ']' := by
  cases v with
  | jnull => exact ⟨'n', _, rfl, by decide, by decide⟩
  | jbool b =>
    cases b with
    | true => exact ⟨'t', _, rfl, by decide, by decide⟩
    | false => exact ⟨'f', _, rfl, by decide, by decide⟩
  | jstr s => exact ⟨'"', _, rfl, by decide, by decide⟩
  | jint n =>
    rw [jvalDumps, intDigits]
    by_cases hn : n < 0
    · rw [if_pos hn]
      exact ⟨'-', _, rfl, by decide, by decide⟩
    · rw [if_neg hn]
      cases hnn : natDigits n.toNat with
      | nil => exact absurd hnn (natDigits_ne_nil n.toNat)
      | cons a l =>
        have ha : a.isDigit = true := natDigits_digits n.toNat a (by rw [hnn]; simp)
        refine ⟨a, l, rfl, (head_not_special (Or.inl ha)).1, ?_⟩
        intro he
        rw [he] at ha
        cases ha

/-- Helper: `parseVal` reads back a dumped array of scalars. -/
theorem parseVal_arr (ys : List JVal) (rest : List Char) (fuel : Nat)
    (hfuel : ys.length + 2 ≤ fuel) :
    parseVal fuel ('[' :: (sepJoinComSpace (ys.map jvalDumps) ++ ']' :: rest)) =
      some (.arr (ys.map jsonOfJVal), rest) := by
  obtain ⟨f, rfl⟩ : ∃ f, fuel = f + 1 := ⟨fuel - 1, by omega⟩
  simp only [parseVal, skipWs_cons_not (show isWs '[' = false by decide)]
  rw [if_neg (take_ne_of_head (by decide) _ _ 4 (by omega)),
    if_neg (take_ne_of_head (by decide) _ _ 4 (by omega)),
    if_neg (take_ne_of_head (by decide) _ _ 5 (by omega)),
    if_neg (by simp),
    if_pos (show ('[' :: (sepJoinComSpace (ys.map jvalDumps) ++ ']' :: rest)).head? =
      some '[' from rfl)]
  simp only [List.tail_cons]
  cases ys with
  | nil =>
    show (if (skipWs (sepJoinComSpace [] ++ ']' :: rest)).head? = some ']' then _
      else _) = _
    simp only [sepJoinComSpace, List.nil_append,
      skipWs_cons_not (show isWs ']' = false by decide)]
    rw [if_pos (show (']' :: rest).head? = some ']' from rfl)]
    rfl
  | cons y ys' =>
    obtain ⟨d, t, hdt, hws, hne⟩ := jvalDumps_head y
    have hZ : ∃ Z, sepJoinComSpace ((y :: ys').map jvalDumps) ++ ']' :: rest =
        d :: Z := by
      cases ys' with
      | nil => exact ⟨t ++ ']' :: rest, by simp [sepJoinComSpace, hdt]⟩
      | cons a b =>
        exact ⟨t ++ ", ".data ++
          (sepJoinComSpace ((a :: b).map jvalDumps) ++ ']' :: rest), by
            simp [sepJoinComSpace, hdt]⟩
    obtain ⟨Z, hZ⟩ := hZ
    have hel := parseElems_jvals (y :: ys') rest f (by simp)
      (by simp only [List.length_cons] at hfuel ⊢; omega)
    rw [hZ] at hel ⊢
    rw [skipWs_cons_not hws, if_neg (by simp [hne]), hel]
    rfl

/-- Helper: `parseVal` reads back `json.dumps(list(row))`. -/
theorem parseVal_dumpsRow (r : List JVal) (rest : List Char) (fuel : Nat)
    (hfuel : r.length + 2 ≤ fuel) :
    parseVal fuel (dumpsRow r ++ rest) = some (.arr (r.map jsonOfJVal), rest) := by
  have harr : dumpsRow r ++ rest =
      '[' :: (sepJoinComSpace (r.map jvalDumps) ++ ']' :: rest) := by
    simp [dumpsRow]
  rw [harr]
  exact parseVal_arr r rest fuel hfuel

/-- Helper: `parseVal` reads back `json.dumps` of the column-name list. -/
theorem parseVal_dumpsStrList (cols : List (List Char)) (rest : List Char)
    (fuel : Nat) (hfuel : cols.length + 2 ≤ fuel) :
    parseVal fuel (dumpsStrList cols ++ rest) =
      some (.arr (cols.map .str), rest) := by
  have hmap1 : (cols.map JVal.jstr).map jvalDumps = cols.map dumpsStr := by
    rw [List.map_map]
    rfl
  have hmap2 : (cols.map JVal.jstr).map jsonOfJVal = cols.map Json.str := by
    rw [List.map_map]
    rfl
  have harr : dumpsStrList cols ++ rest =
      '[' :: (sepJoinComSpace ((cols.map JVal.jstr).map jvalDumps) ++ ']' :: rest) := by
    simp [dumpsStrList, hmap1]
  rw [harr]
  have := parseVal_arr (cols.map JVal.jstr) rest fuel
    (by rw [List.length_map]; omega)
  rw [hmap2] at this
  exact this

/-- Helper: the element parser reads back the comma-joined row fragments of
the streamed `rows` array up to the closing bracket. -/
theorem parseElems_rows (rs : List (List JVal)) (r : List JVal) (rest : List Char)
    (fuel : Nat)
    (hfuel : ((r :: rs).map (fun x => x.length + 3)).sum + 1 ≤ fuel) :
    parseElems fuel (dumpsRow r ++ ((emitRows false rs).flatten ++ ']' :: rest)) =
      some ((r :: rs).map (fun x => Json.arr (x.map jsonOfJVal)), rest) := by
  induction rs generalizing r fuel with
  | nil =>
    simp only [List.map_cons, List.map_nil, List.sum_cons, List.sum_nil] at hfuel
    obtain ⟨f, rfl⟩ : ∃ f, fuel = f + 1 := ⟨fuel - 1, by omega⟩
    simp only [emitRows, List.flatten_nil, List.nil_append]
    rw [parseElems, parseVal_dumpsRow r _ f (by omega), Option.some_bind]
    simp only [skipWs_cons_not (show isWs ']' = false by decide)]
    rw [if_neg (by simp), if_pos (show (']' :: rest).head? = some ']' from rfl)]
    rfl
  | cons r2 rs' ih =>
    simp only [List.map_cons, List.sum_cons] at hfuel
    obtain ⟨f, rfl⟩ : ∃ f, fuel = f + 1 := ⟨fuel - 1, by omega⟩
    have hemit : (emitRows false (r2 :: rs')).flatten =
        ',' :: (dumpsRow r2 ++ (emitRows false rs').flatten) := by
      simp [emitRows]
    rw [hemit]
    rw [show dumpsRow r ++ ((',' :: (dumpsRow r2 ++ (emitRows false rs').flatten))
        ++ ']' :: rest) =
      dumpsRow r ++ (',' :: (dumpsRow r2 ++ ((emitRows false rs').flatten
        ++ ']' :: rest))) from by simp]
    rw [parseElems, parseVal_dumpsRow r _ f (by omega), Option.some_bind]
    simp only [skipWs_cons_not (show isWs ',' = false by decide)]
    rw [if_pos (show (',' :: (dumpsRow r2 ++ ((emitRows false rs').flatten
      ++ ']' :: rest))).head? = some ',' from rfl)]
    simp only [List.tail_cons]
    rw [ih r2 f (by simp only [List.map_cons, List.sum_cons]; omega)]
    rfl

/-- Helper: the row emitter in continuation mode distributes over append. -/
theorem emitRows_append_false (xs ys : List (List JVal)) :
    emitRows false (xs ++ ys) = emitRows false xs ++ emitRows false ys := by
  induction xs with
  | nil => rfl
  | cons x xs' ih =>
    simp only [List.cons_append, emitRows, List.append_eq, ih, List.append_assoc]

/-- Helper: the row emitter distributes over an append when the first part is
non-empty (the continuation always emits leading commas). -/
theorem emitRows_append (xs ys : List (List JVal)) (first : Bool) (hne : xs ≠ []) :
    emitRows first (xs ++ ys) = emitRows first xs ++ emitRows false ys := by
  cases xs with
  | nil => exact absurd rfl hne
  | cons x xs' =>
    simp only [List.cons_append, emitRows, List.append_eq, emitRows_append_false,
      List.append_assoc]

/-- Helper: with a positive chunk size the fetchmany loop emits exactly the
per-row fragments of the whole cursor contents — chunking affects only
fragment boundaries. -/
theorem streamRowsLoop_eq (chunk : Nat) (hc : 1 ≤ chunk) (rows : List (List JVal))
    (first : Bool) : streamRowsLoop chunk rows first = emitRows first rows := by
  have H : ∀ n (rows : List (List JVal)) first, rows.length ≤ n →
      streamRowsLoop chunk rows first = emitRows first rows := by
    intro n
    induction n with
    | zero =>
      intro rows first hlen
      have : rows = [] := by
        cases rows with
        | nil => rfl
        | cons a b => simp at hlen
      subst this
      rw [streamRowsLoop, dif_pos (by simp)]
      rfl
    | succ n ihn =>
      intro rows first hlen
      cases rows with
      | nil =>
        rw [streamRowsLoop, dif_pos (by simp)]
        rfl
      | cons r rs =>
        rw [streamRowsLoop]
        have htake : ((r :: rs).take chunk).isEmpty = false := by
          obtain ⟨c, rfl⟩ : ∃ c, chunk = c + 1 := ⟨chunk - 1, by omega⟩
          rfl
        rw [dif_neg (by simp [htake])]
        rw [ihn ((r :: rs).drop chunk) false
          (by simp only [List.length_drop, List.length_cons] at hlen ⊢; omega)]
        rw [← emitRows_append _ _ first
          (by intro hc2; rw [← List.isEmpty_iff] at hc2; rw [hc2] at htake; cases htake)]
        rw [List.take_append_drop]
  exact H rows.length rows first (Nat.le_refl _)

/-- Helper: a leading space is invisible to the field parser. -/
theorem parseFields_cons_space (fuel : Nat) (l : List Char) :
    parseFields fuel (' ' :: l) = parseFields fuel l := by
  cases fuel with
  | zero => rfl
  | succ f =>
    simp only [parseFields]
    rw [show skipWs (' ' :: l) = skipWs l from by simp [skipWs, isWs]]

/-- Helper: `parseVal` on a non-empty object defers to the field parser. -/
theorem parseVal_obj_nonempty (l : List Char) (fuel : Nat)
    (fs : List (List Char × Json)) (rest : List Char)
    (hhead : l.head? = some '"')
    (hfields : parseFields fuel l = some (fs, rest)) :
    parseVal (fuel + 1) ('\x7b' :: l) = some (.obj fs, rest) := by
  cases l with
  | nil => cases hhead
  | cons c l' =>
    simp only [List.head?_cons, Option.some.injEq] at hhead
    subst hhead
    simp only [parseVal, skipWs_cons_not (show isWs '\x7b' = false by decide)]
    rw [if_neg (take_ne_of_head (by decide) _ _ 4 (by omega)),
      if_neg (take_ne_of_head (by decide) _ _ 4 (by omega)),
      if_neg (take_ne_of_head (by decide) _ _ 5 (by omega)),
      if_neg (by simp), if_neg (by simp),
      if_pos (show ('\x7b' :: '"' :: l').head? = some '\x7b' from rfl)]
    simp only [List.tail_cons, skipWs_cons_not (show isWs '"' = false by decide)]
    rw [if_neg (by simp), hfields]
    rfl

/-- Helper: the field parser reads one final `"key": value` pair up to the
closing brace. -/
theorem parseFields_last (key : List Char) (hk : escapeList key = key)
    (valstr : List Char) (v : Json) (rest : List Char) (f : Nat)
    (hval : parseVal f (valstr ++ '\x7d' :: rest) = some (v, '\x7d' :: rest)) :
    parseFields (f + 1)
      ('"' :: (key ++ '"' :: ':' :: ' ' :: (valstr ++ '\x7d' :: rest))) =
      some ([(key, v)], rest) := by
  simp only [parseFields, skipWs_cons_not (show isWs '"' = false by decide)]
  rw [if_pos (show ('"' :: (key ++ '"' :: ':' :: ' ' ::
    (valstr ++ '\x7d' :: rest))).head? = some '"' from rfl)]
  simp only [List.tail_cons]
  rw [show key ++ '"' :: ':' :: ' ' :: (valstr ++ '\x7d' :: rest) =
    escapeList key ++ '"' :: (':' :: ' ' :: (valstr ++ '\x7d' :: rest)) from by
    rw [hk]]
  rw [parseStringBody_escape, Option.some_bind]
  simp only [skipWs_cons_not (show isWs ':' = false by decide)]
  rw [if_pos (show (':' :: ' ' :: (valstr ++ '\x7d' :: rest)).head? = some ':'
    from rfl)]
  simp only [List.tail_cons, parseVal_cons_space]
  rw [hval, Option.some_bind]
  simp only [skipWs_cons_not (show isWs '\x7d' = false by decide)]
  rw [if_neg (by simp), if_pos (show ('\x7d' :: rest).head? = some '\x7d' from rfl)]
  rfl

/-- Helper: the field parser reads one `"key": value` pair followed by a comma
and further fields. -/
theorem parseFields_cons (key : List Char) (hk : escapeList key = key)
    (valstr : List Char) (v : Json) (rest rest2 : List Char)
    (fs : List (List Char × Json)) (f : Nat)
    (hval : parseVal f (valstr ++ ',' :: ' ' :: rest) = some (v, ',' :: ' ' :: rest))
    (hrest : parseFields f rest = some (fs, rest2)) :
    parseFields (f + 1)
      ('"' :: (key ++ '"' :: ':' :: ' ' :: (valstr ++ ',' :: ' ' :: rest))) =
      some ((key, v) :: fs, rest2) := by
  simp only [parseFields, skipWs_cons_not (show isWs '"' = false by decide)]
  rw [if_pos (show ('"' :: (key ++ '"' :: ':' :: ' ' ::
    (valstr ++ ',' :: ' ' :: rest))).head? = some '"' from rfl)]
  simp only [List.tail_cons]
  rw [show key ++ '"' :: ':' :: ' ' :: (valstr ++ ',' :: ' ' :: rest) =
    escapeList key ++ '"' :: (':' :: ' ' :: (valstr ++ ',' :: ' ' :: rest)) from by
    rw [hk]]
  rw [parseStringBody_escape, Option.some_bind]
  simp only [skipWs_cons_not (show isWs ':' = false by decide)]
  rw [if_pos (show (':' :: ' ' :: (valstr ++ ',' :: ' ' :: rest)).head? = some ':'
    from rfl)]
  simp only [List.tail_cons, parseVal_cons_space]
  rw [hval, Option.some_bind]
  simp only [skipWs_cons_not (show isWs ',' = false by decide)]
  rw [if_pos (show (',' :: ' ' :: rest).head? = some ',' from rfl)]
  simp only [List.tail_cons, parseFields_cons_space]
  rw [hrest]
  rfl

/-- Helper: `parseVal` reads back the streamed `rows` array (hand-spliced
with bare commas). -/
theorem parseVal_rowsArr (rows : List (List JVal)) (rest : List Char) (fuel : Nat)
    (hfuel : (rows.map (fun x => x.length + 3)).sum + 2 ≤ fuel) :
    parseVal fuel ('[' :: ((emitRows true rows).flatten ++ ']' :: rest)) =
      some (.arr (rows.map fun r => .arr (r.map jsonOfJVal)), rest) := by
  obtain ⟨f, rfl⟩ : ∃ f, fuel = f + 1 := ⟨fuel - 1, by omega⟩
  simp only [parseVal, skipWs_cons_not (show isWs '[' = false by decide)]
  rw [if_neg (take_ne_of_head (by decide) _ _ 4 (by omega)),
    if_neg (take_ne_of_head (by decide) _ _ 4 (by omega)),
    if_neg (take_ne_of_head (by decide) _ _ 5 (by omega)),
    if_neg (by simp),
    if_pos (show ('[' :: ((emitRows true rows).flatten ++ ']' :: rest)).head? =
      some '[' from rfl)]
  simp only [List.tail_cons]
  cases rows with
  | nil =>
    show (if (skipWs ((emitRows true ([] : List (List JVal))).flatten
      ++ ']' :: rest)).head? = some ']' then _ else _) = _
    simp only [emitRows, List.flatten_nil, List.nil_append,
      skipWs_cons_not (show isWs ']' = false by decide)]
    rw [if_pos (show (']' :: rest).head? = some ']' from rfl)]
    rfl
  | cons r rs =>
    have hemit : (emitRows true (r :: rs)).flatten =
        dumpsRow r ++ (emitRows false rs).flatten := by
      simp [emitRows]
    rw [hemit, List.append_assoc]
    rw [show dumpsRow r ++ ((emitRows false rs).flatten ++ ']' :: rest) =
      '[' :: (sepJoinComSpace (r.map jvalDumps) ++ (']' ::
        ((emitRows false rs).flatten ++ ']' :: rest))) from by simp [dumpsRow]]
    simp only [skipWs_cons_not (show isWs '[' = false by decide)]
    rw [if_neg (by simp)]
    rw [show '[' :: (sepJoinComSpace (r.map jvalDumps) ++ (']' ::
        ((emitRows false rs).flatten ++ ']' :: rest))) =
      dumpsRow r ++ ((emitRows false rs).flatten ++ ']' :: rest) from by
        simp [dumpsRow]]
    rw [parseElems_rows rs r rest f (by
      simp only [List.map_cons, List.sum_cons] at hfuel ⊢
      omega)]
    rfl

/-- Helper: `parseVal` reads back a formatted natural number. -/
theorem parseVal_natNum (n : Nat) (rest : List Char) (fuel : Nat)
    (hrest : ∀ c, rest.head? = some c → c.isDigit = false) :
    parseVal (fuel + 1) (natDigits n ++ rest) = some (.num (n : Int), rest) := by
  have h := parseVal_jval (.jint (n : Int)) rest fuel hrest
  rw [show jvalDumps (.jint (n : Int)) = natDigits n from by
    rw [jvalDumps, intDigits, if_neg (by omega), Int.toNat_natCast]] at h
  exact h

/-- Helper: the value parser reads the entire streamed document (given here in
parenthesised form) back into `queryDocJson`. -/
theorem parseVal_queryDoc (sql : List Char) (cols : List (List Char))
    (rows : List (List JVal)) (page pageSize total : Nat) (fuel : Nat)
    (hfuel : (rows.map (fun x => x.length + 3)).sum + cols.length + 16 ≤ fuel) :
    parseVal fuel
      ('\x7b' :: ('"' :: ("sql".data ++ '"' :: ':' :: ' ' ::
        (dumpsStr sql ++ ',' :: ' ' ::
        ('"' :: ("columns".data ++ '"' :: ':' :: ' ' ::
        (dumpsStrList cols ++ ',' :: ' ' ::
        ('"' :: ("rows".data ++ '"' :: ':' :: ' ' ::
        (('[' :: ((emitRows true rows).flatten ++ [']'])) ++ ',' :: ' ' ::
        ('"' :: ("pagination".data ++ '"' :: ':' :: ' ' ::
        (('\x7b' :: ('"' :: ("page".data ++ '"' :: ':' :: ' ' ::
          (natDigits page ++ ',' :: ' ' ::
          ('"' :: ("page_size".data ++ '"' :: ':' :: ' ' ::
          (natDigits pageSize ++ ',' :: ' ' ::
          ('"' :: ("total_rows".data ++ '"' :: ':' :: ' ' ::
          (natDigits total ++ ',' :: ' ' ::
          ('"' :: ("total_pages".data ++ '"' :: ':' :: ' ' ::
          (natDigits (total_pages total pageSize) ++ '\x7d' :: [])))))))))))))
          ++ '\x7d' :: []))))))))))))) =
      some (queryDocJson sql cols rows page pageSize total, []) := by
  obtain ⟨f1, rfl⟩ : ∃ f1, fuel = f1 + 1 := ⟨fuel - 1, by omega⟩
  obtain ⟨f2, rfl⟩ : ∃ f2, f1 = f2 + 1 := ⟨f1 - 1, by omega⟩
  obtain ⟨f3, rfl⟩ : ∃ f3, f2 = f3 + 1 := ⟨f2 - 1, by omega⟩
  obtain ⟨f4, rfl⟩ : ∃ f4, f3 = f4 + 1 := ⟨f3 - 1, by omega⟩
  obtain ⟨f5, rfl⟩ : ∃ f5, f4 = f5 + 1 := ⟨f4 - 1, by omega⟩
  obtain ⟨f6, rfl⟩ : ∃ f6, f5 = f6 + 1 := ⟨f5 - 1, by omega⟩
  obtain ⟨f7, rfl⟩ : ∃ f7, f6 = f7 + 1 := ⟨f6 - 1, by omega⟩
  obtain ⟨f8, rfl⟩ : ∃ f8, f7 = f8 + 1 := ⟨f7 - 1, by omega⟩
  obtain ⟨f9, rfl⟩ : ∃ f9, f8 = f9 + 1 := ⟨f8 - 1, by omega⟩
  obtain ⟨f10, rfl⟩ : ∃ f10, f9 = f10 + 1 := ⟨f9 - 1, by omega⟩
  obtain ⟨f11, rfl⟩ : ∃ f11, f10 = f11 + 1 := ⟨f10 - 1, by omega⟩
  have hnodig : ∀ (x : Char) (t : List Char), x.isDigit = false →
      ∀ c, (x :: t).head? = some c → c.isDigit = false := by
    intro x t hx c hc
    simp only [List.head?_cons, Option.some.injEq] at hc
    rw [← hc]
    exact hx
  -- pagination object, from its last field outward
  have hv4 : parseVal (f11 + 1)
      (natDigits (total_pages total pageSize) ++ '\x7d' :: ('\x7d' :: [])) =
      some (.num ((total_pages total pageSize : Nat) : Int), '\x7d' :: ('\x7d' :: [])) :=
    parseVal_natNum _ _ f11 (hnodig _ _ (by decide))
  have hpf4 : parseFields (f11 + 1 + 1)
      ('"' :: ("total_pages".data ++ '"' :: ':' :: ' ' ::
        (natDigits (total_pages total pageSize) ++ '\x7d' :: ('\x7d' :: [])))) =
      some ([("total_pages".data, .num ((total_pages total pageSize : Nat) : Int))],
        '\x7d' :: []) :=
    parseFields_last _ (by decide) _ _ _ _ hv4
  have hv3 : parseVal (f11 + 1 + 1)
      (natDigits total ++ ',' :: ' ' ::
        ('"' :: ("total_pages".data ++ '"' :: ':' :: ' ' ::
        (natDigits (total_pages total pageSize) ++ '\x7d' :: ('\x7d' :: []))))) =
      some (.num ((total : Nat) : Int), ',' :: ' ' ::
        ('"' :: ("total_pages".data ++ '"' :: ':' :: ' ' ::
        (natDigits (total_pages total pageSize) ++ '\x7d' :: ('\x7d' :: []))))) :=
    parseVal_natNum _ _ (f11 + 1) (hnodig _ _ (by decide))
  have hpf3 : parseFields (f11 + 1 + 1 + 1)
      ('"' :: ("total_rows".data ++ '"' :: ':' :: ' ' ::
        (natDigits total ++ ',' :: ' ' ::
        ('"' :: ("total_pages".data ++ '"' :: ':' :: ' ' ::
        (natDigits (total_pages total pageSize) ++ '\x7d' :: ('\x7d' :: []))))))) =
      some ([("total_rows".data, .num ((total : Nat) : Int)),
        ("total_pages".data, .num ((total_pages total pageSize : Nat) : Int))],
        '\x7d' :: []) :=
    parseFields_cons _ (by decide) _ _ _ _ _ _ hv3 hpf4
  have hv2 : parseVal (f11 + 1 + 1 + 1)
      (natDigits pageSize ++ ',' :: ' ' ::
        ('"' :: ("total_rows".data ++ '"' :: ':' :: ' ' ::
        (natDigits total ++ ',' :: ' ' ::
        ('"' :: ("total_pages".data ++ '"' :: ':' :: ' ' ::
        (natDigits (total_pages total pageSize) ++ '\x7d' :: ('\x7d' :: [])))))))) =
      some (.num ((pageSize : Nat) : Int), ',' :: ' ' ::
        ('"' :: ("total_rows".data ++ '"' :: ':' :: ' ' ::
        (natDigits total ++ ',' :: ' ' ::
        ('"' :: ("total_pages".data ++ '"' :: ':' :: ' ' ::
        (natDigits (total_pages total pageSize) ++ '\x7d' :: ('\x7d' :: [])))))))) :=
    parseVal_natNum _ _ (f11 + 1 + 1) (hnodig _ _ (by decide))
  have hpf2 : parseFields (f11 + 1 + 1 + 1 + 1)
      ('"' :: ("page_size".data ++ '"' :: ':' :: ' ' ::
        (natDigits pageSize ++ ',' :: ' ' ::
        ('"' :: ("total_rows".data ++ '"' :: ':' :: ' ' ::
        (natDigits total ++ ',' :: ' ' ::
        ('"' :: ("total_pages".data ++ '"' :: ':' :: ' ' ::
        (natDigits (total_pages total pageSize) ++ '\x7d' :: ('\x7d' :: [])))))))))) =
      some ([("page_size".data, .num ((pageSize : Nat) : Int)),
        ("total_rows".data, .num ((total : Nat) : Int)),
        ("total_pages".data, .num ((total_pages total pageSize : Nat) : Int))],
        '\x7d' :: []) :=
    parseFields_cons _ (by decide) _ _ _ _ _ _ hv2 hpf3
  have hv1 : parseVal (f11 + 1 + 1 + 1 + 1)
      (natDigits page ++ ',' :: ' ' ::
        ('"' :: ("page_size".data ++ '"' :: ':' :: ' ' ::
        (natDigits pageSize ++ ',' :: ' ' ::
        ('"' :: ("total_rows".data ++ '"' :: ':' :: ' ' ::
        (natDigits total ++ ',' :: ' ' ::
        ('"' :: ("total_pages".data ++ '"' :: ':' :: ' ' ::
        (natDigits (total_pages total pageSize) ++ '\x7d' :: ('\x7d' :: []))))))))))) =
      some (.num ((page : Nat) : Int), ',' :: ' ' ::
        ('"' :: ("page_size".data ++ '"' :: ':' :: ' ' ::
        (natDigits pageSize ++ ',' :: ' ' ::
        ('"' :: ("total_rows".data ++ '"' :: ':' :: ' ' ::
        (natDigits total ++ ',' :: ' ' ::
        ('"' :: ("total_pages".data ++ '"' :: ':' :: ' ' ::
        (natDigits (total_pages total pageSize) ++ '\x7d' :: ('\x7d' :: []))))))))))) :=
    parseVal_natNum _ _ (f11 + 1 + 1 + 1) (hnodig _ _ (by decide))
  have hpf1 : parseFields (f11 + 1 + 1 + 1 + 1 + 1)
      ('"' :: ("page".data ++ '"' :: ':' :: ' ' ::
        (natDigits page ++ ',' :: ' ' ::
        ('"' :: ("page_size".data ++ '"' :: ':' :: ' ' ::
        (natDigits pageSize ++ ',' :: ' ' ::
        ('"' :: ("total_rows".data ++ '"' :: ':' :: ' ' ::
        (natDigits total ++ ',' :: ' ' ::
        ('"' :: ("total_pages".data ++ '"' :: ':' :: ' ' ::
        (natDigits (total_pages total pageSize) ++ '\x7d' :: ('\x7d' :: []))))))))))))) =
      some ([("page".data, .num ((page : Nat) : Int)),
        ("page_size".data, .num ((pageSize : Nat) : Int)),
        ("total_rows".data, .num ((total : Nat) : Int)),
        ("total_pages".data, .num ((total_pages total pageSize : Nat) : Int))],
        '\x7d' :: []) :=
    parseFields_cons _ (by decide) _ _ _ _ _ _ hv1 hpf2
  have hpagv : parseVal (f11 + 1 + 1 + 1 + 1 + 1 + 1)
      (('\x7b' :: ('"' :: ("page".data ++ '"' :: ':' :: ' ' ::
        (natDigits page ++ ',' :: ' ' ::
        ('"' :: ("page_size".data ++ '"' :: ':' :: ' ' ::
        (natDigits pageSize ++ ',' :: ' ' ::
        ('"' :: ("total_rows".data ++ '"' :: ':' :: ' ' ::
        (natDigits total ++ ',' :: ' ' ::
        ('"' :: ("total_pages".data ++ '"' :: ':' :: ' ' ::
        (natDigits (total_pages total pageSize) ++ '\x7d' :: [])))))))))))))
        ++ '\x7d' :: []) =
      some (.obj [("page".data, .num ((page : Nat) : Int)),
        ("page_size".data, .num ((pageSize : Nat) : Int)),
        ("total_rows".data, .num ((total : Nat) : Int)),
        ("total_pages".data, .num ((total_pages total pageSize : Nat) : Int))],
        '\x7d' :: []) := by
    have h := parseVal_obj_nonempty _ _ _ _ (by rfl) hpf1
    simp only [List.cons_append, List.append_assoc, List.nil_append] at h ⊢
    exact h
  have hof4 : parseFields (f11 + 1 + 1 + 1 + 1 + 1 + 1 + 1)
      ('"' :: ("pagination".data ++ '"' :: ':' :: ' ' ::
        (('\x7b' :: ('"' :: ("page".data ++ '"' :: ':' :: ' ' ::
        (natDigits page ++ ',' :: ' ' ::
        ('"' :: ("page_size".data ++ '"' :: ':' :: ' ' ::
        (natDigits pageSize ++ ',' :: ' ' ::
        ('"' :: ("total_rows".data ++ '"' :: ':' :: ' ' ::
        (natDigits total ++ ',' :: ' ' ::
        ('"' :: ("total_pages".data ++ '"' :: ':' :: ' ' ::
        (natDigits (total_pages total pageSize) ++ '\x7d' :: [])))))))))))))
        ++ '\x7d' :: []))) =
      some ([("pagination".data,
        .obj [("page".data, .num ((page : Nat) : Int)),
          ("page_size".data, .num ((pageSize : Nat) : Int)),
          ("total_rows".data, .num ((total : Nat) : Int)),
          ("total_pages".data,
            .num ((total_pages total pageSize : Nat) : Int))])], []) :=
    parseFields_last _ (by decide) _ _ _ _ hpagv
  have hvrows : parseVal (f11 + 1 + 1 + 1 + 1 + 1 + 1 + 1)
      (('[' :: ((emitRows true rows).flatten ++ [']'])) ++ ',' :: ' ' ::
        ('"' :: ("pagination".data ++ '"' :: ':' :: ' ' ::
        (('\x7b' :: ('"' :: ("page".data ++ '"' :: ':' :: ' ' ::
        (natDigits page ++ ',' :: ' ' ::
        ('"' :: ("page_size".data ++ '"' :: ':' :: ' ' ::
        (natDigits pageSize ++ ',' :: ' ' ::
        ('"' :: ("total_rows".data ++ '"' :: ':' :: ' ' ::
        (natDigits total ++ ',' :: ' ' ::
        ('"' :: ("total_pages".data ++ '"' :: ':' :: ' ' ::
        (natDigits (total_pages total pageSize) ++ '\x7d' :: [])))))))))))))
        ++ '\x7d' :: [])))) =
      some (.arr (rows.map fun r => .arr (r.map jsonOfJVal)), ',' :: ' ' ::
        ('"' :: ("pagination".data ++ '"' :: ':' :: ' ' ::
        (('\x7b' :: ('"' :: ("page".data ++ '"' :: ':' :: ' ' ::
        (natDigits page ++ ',' :: ' ' ::
        ('"' :: ("page_size".data ++ '"' :: ':' :: ' ' ::
        (natDigits pageSize ++ ',' :: ' ' ::
        ('"' :: ("total_rows".data ++ '"' :: ':' :: ' ' ::
        (natDigits total ++ ',' :: ' ' ::
        ('"' :: ("total_pages".data ++ '"' :: ':' :: ' ' ::
        (natDigits (total_pages total pageSize) ++ '\x7d' :: [])))))))))))))
        ++ '\x7d' :: [])))) := by
    have h := parseVal_rowsArr rows
      (',' :: ' ' ::
        ('"' :: ("pagination".data ++ '"' :: ':' :: ' ' ::
        (('\x7b' :: ('"' :: ("page".data ++ '"' :: ':' :: ' ' ::
        (natDigits page ++ ',' :: ' ' ::
        ('"' :: ("page_size".data ++ '"' :: ':' :: ' ' ::
        (natDigits pageSize ++ ',' :: ' ' ::
        ('"' :: ("total_rows".data ++ '"' :: ':' :: ' ' ::
        (natDigits total ++ ',' :: ' ' ::
        ('"' :: ("total_pages".data ++ '"' :: ':' :: ' ' ::
        (natDigits (total_pages total pageSize) ++ '\x7d' :: [])))))))))))))
        ++ '\x7d' :: []))))
      (f11 + 1 + 1 + 1 + 1 + 1 + 1 + 1) (by omega)
    simp only [List.cons_append, List.append_assoc, List.nil_append] at h ⊢
    exact h
  have hof3 : parseFields (f11 + 1 + 1 + 1 + 1 + 1 + 1 + 1 + 1)
      ('"' :: ("rows".data ++ '"' :: ':' :: ' ' ::
        (('[' :: ((emitRows true rows).flatten ++ [']'])) ++ ',' :: ' ' ::
        ('"' :: ("pagination".data ++ '"' :: ':' :: ' ' ::
        (('\x7b' :: ('"' :: ("page".data ++ '"' :: ':' :: ' ' ::
        (natDigits page ++ ',' :: ' ' ::
        ('"' :: ("page_size".data ++ '"' :: ':' :: ' ' ::
        (natDigits pageSize ++ ',' :: ' ' ::
        ('"' :: ("total_rows".data ++ '"' :: ':' :: ' ' ::
        (natDigits total ++ ',' :: ' ' ::
        ('"' :: ("total_pages".data ++ '"' :: ':' :: ' ' ::
        (natDigits (total_pages total pageSize) ++ '\x7d' :: [])))))))))))))
        ++ '\x7d' :: [])))))) =
      some ([("rows".data, .arr (rows.map fun r => .arr (r.map jsonOfJVal))),
        ("pagination".data,
        .obj [("page".data, .num ((page : Nat) : Int)),
          ("page_size".data, .num ((pageSize : Nat) : Int)),
          ("total_rows".data, .num ((total : Nat) : Int)),
          ("total_pages".data,
            .num ((total_pages total pageSize : Nat) : Int))])], []) :=
    parseFields_cons _ (by decide) _ _ _ _ _ _ hvrows hof4
  have hvcols : parseVal (f11 + 1 + 1 + 1 + 1 + 1 + 1 + 1 + 1)
      (dumpsStrList cols ++ ',' :: ' ' ::
        ('"' :: ("rows".data ++ '"' :: ':' :: ' ' ::
        (('[' :: ((emitRows true rows).flatten ++ [']'])) ++ ',' :: ' ' ::
        ('"' :: ("pagination".data ++ '"' :: ':' :: ' ' ::
        (('\x7b' :: ('"' :: ("page".data ++ '"' :: ':' :: ' ' ::
        (natDigits page ++ ',' :: ' ' ::
        ('"' :: ("page_size".data ++ '"' :: ':' :: ' ' ::
        (natDigits pageSize ++ ',' :: ' ' ::
        ('"' :: ("total_rows".data ++ '"' :: ':' :: ' ' ::
        (natDigits total ++ ',' :: ' ' ::
        ('"' :: ("total_pages".data ++ '"' :: ':' :: ' ' ::
        (natDigits (total_pages total pageSize) ++ '\x7d' :: [])))))))))))))
        ++ '\x7d' :: []))))))) =
      some (.arr (cols.map .str), ',' :: ' ' ::
        ('"' :: ("rows".data ++ '"' :: ':' :: ' ' ::
        (('[' :: ((emitRows true rows).flatten ++ [']'])) ++ ',' :: ' ' ::
        ('"' :: ("pagination".data ++ '"' :: ':' :: ' ' ::
        (('\x7b' :: ('"' :: ("page".data ++ '"' :: ':' :: ' ' ::
        (natDigits page ++ ',' :: ' ' ::
        ('"' :: ("page_size".data ++ '"' :: ':' :: ' ' ::
        (natDigits pageSize ++ ',' :: ' ' ::
        ('"' :: ("total_rows".data ++ '"' :: ':' :: ' ' ::
        (natDigits total ++ ',' :: ' ' ::
        ('"' :: ("total_pages".data ++ '"' :: ':' :: ' ' ::
        (natDigits (total_pages total pageSize) ++ '\x7d' :: [])))))))))))))
        ++ '\x7d' :: []))))))) :=
    parseVal_dumpsStrList cols _ _ (by omega)
  have hof2 : parseFields (f11 + 1 + 1 + 1 + 1 + 1 + 1 + 1 + 1 + 1)
      ('"' :: ("columns".data ++ '"' :: ':' :: ' ' ::
        (dumpsStrList cols ++ ',' :: ' ' ::
        ('"' :: ("rows".data ++ '"' :: ':' :: ' ' ::
        (('[' :: ((emitRows true rows).flatten ++ [']'])) ++ ',' :: ' ' ::
        ('"' :: ("pagination".data ++ '"' :: ':' :: ' ' ::
        (('\x7b' :: ('"' :: ("page".data ++ '"' :: ':' :: ' ' ::
        (natDigits page ++ ',' :: ' ' ::
        ('"' :: ("page_size".data ++ '"' :: ':' :: ' ' ::
        (natDigits pageSize ++ ',' :: ' ' ::
        ('"' :: ("total_rows".data ++ '"' :: ':' :: ' ' ::
        (natDigits total ++ ',' :: ' ' ::
        ('"' :: ("total_pages".data ++ '"' :: ':' :: ' ' ::
        (natDigits (total_pages total pageSize) ++ '\x7d' :: [])))))))))))))
        ++ '\x7d' :: []))))))))) =
      some ([("columns".data, .arr (cols.map .str)),
        ("rows".data, .arr (rows.map fun r => .arr (r.map jsonOfJVal))),
        ("pagination".data,
        .obj [("page".data, .num ((page : Nat) : Int)),
          ("page_size".data, .num ((pageSize : Nat) : Int)),
          ("total_rows".data, .num ((total : Nat) : Int)),
          ("total_pages".data,
            .num ((total_pages total pageSize : Nat) : Int))])], []) :=
    parseFields_cons _ (by decide) _ _ _ _ _ _ hvcols hof3
  have hvsql : parseVal (f11 + 1 + 1 + 1 + 1 + 1 + 1 + 1 + 1 + 1)
      (dumpsStr sql ++ ',' :: ' ' ::
        ('"' :: ("columns".data ++ '"' :: ':' :: ' ' ::
        (dumpsStrList cols ++ ',' :: ' ' ::
        ('"' :: ("rows".data ++ '"' :: ':' :: ' ' ::
        (('[' :: ((emitRows true rows).flatten ++ [']'])) ++ ',' :: ' ' ::
        ('"' :: ("pagination".data ++ '"' :: ':' :: ' ' ::
        (('\x7b' :: ('"' :: ("page".data ++ '"' :: ':' :: ' ' ::
        (natDigits page ++ ',' :: ' ' ::
        ('"' :: ("page_size".data ++ '"' :: ':' :: ' ' ::
        (natDigits pageSize ++ ',' :: ' ' ::
        ('"' :: ("total_rows".data ++ '"' :: ':' :: ' ' ::
        (natDigits total ++ ',' :: ' ' ::
        ('"' :: ("total_pages".data ++ '"' :: ':' :: ' ' ::
        (natDigits (total_pages total pageSize) ++ '\x7d' :: [])))))))))))))
        ++ '\x7d' :: [])))))))))) =
      some (.str sql, ',' :: ' ' ::
        ('"' :: ("columns".data ++ '"' :: ':' :: ' ' ::
        (dumpsStrList cols ++ ',' :: ' ' ::
        ('"' :: ("rows".data ++ '"' :: ':' :: ' ' ::
        (('[' :: ((emitRows true rows).flatten ++ [']'])) ++ ',' :: ' ' ::
        ('"' :: ("pagination".data ++ '"' :: ':' :: ' ' ::
        (('\x7b' :: ('"' :: ("page".data ++ '"' :: ':' :: ' ' ::
        (natDigits page ++ ',' :: ' ' ::
        ('"' :: ("page_size".data ++ '"' :: ':' :: ' ' ::
        (natDigits pageSize ++ ',' :: ' ' ::
        ('"' :: ("total_rows".data ++ '"' :: ':' :: ' ' ::
        (natDigits total ++ ',' :: ' ' ::
        ('"' :: ("total_pages".data ++ '"' :: ':' :: ' ' ::
        (natDigits (total_pages total pageSize) ++ '\x7d' :: [])))))))))))))
        ++ '\x7d' :: [])))))))))) :=
    parseVal_jval (.jstr sql) _ _ (hnodig _ _ (by decide))
  have hof1 : parseFields (f11 + 1 + 1 + 1 + 1 + 1 + 1 + 1 + 1 + 1 + 1)
      ('"' :: ("sql".data ++ '"' :: ':' :: ' ' ::
        (dumpsStr sql ++ ',' :: ' ' ::
        ('"' :: ("columns".data ++ '"' :: ':' :: ' ' ::
        (dumpsStrList cols ++ ',' :: ' ' ::
        ('"' :: ("rows".data ++ '"' :: ':' :: ' ' ::
        (('[' :: ((emitRows true rows).flatten ++ [']'])) ++ ',' :: ' ' ::
        ('"' :: ("pagination".data ++ '"' :: ':' :: ' ' ::
        (('\x7b' :: ('"' :: ("page".data ++ '"' :: ':' :: ' ' ::
        (natDigits page ++ ',' :: ' ' ::
        ('"' :: ("page_size".data ++ '"' :: ':' :: ' ' ::
        (natDigits pageSize ++ ',' :: ' ' ::
        ('"' :: ("total_rows".data ++ '"' :: ':' :: ' ' ::
        (natDigits total ++ ',' :: ' ' ::
        ('"' :: ("total_pages".data ++ '"' :: ':' :: ' ' ::
        (natDigits (total_pages total pageSize) ++ '\x7d' :: [])))))))))))))
        ++ '\x7d' :: [])))))))))))) =
      some ([("sql".data, .str sql),
        ("columns".data, .arr (cols.map .str)),
        ("rows".data, .arr (rows.map fun r => .arr (r.map jsonOfJVal))),
        ("pagination".data,
        .obj [("page".data, .num ((page : Nat) : Int)),
          ("page_size".data, .num ((pageSize : Nat) : Int)),
          ("total_rows".data, .num ((total : Nat) : Int)),
          ("total_pages".data,
            .num ((total_pages total pageSize : Nat) : Int))])], []) :=
    parseFields_cons _ (by decide) _ _ _ _ _ _ hvsql hof2
  have h := parseVal_obj_nonempty _ _ _ _ (by rfl) hof1
  simpa only [queryDocJson] using h

/-- Every dumped scalar is at least one character. -/
theorem jvalDumps_len_pos (v : JVal) : 1 ≤ (jvalDumps v).length := by
  cases v with
  | jnull => decide
  | jbool b => cases b <;> decide
  | jint n =>
    show 1 ≤ (intDigits n).length
    rw [intDigits]
    by_cases h : n < 0
    · rw [if_pos h]
      simp
    · rw [if_neg h]
      have := natDigits_ne_nil n.toNat
      exact List.length_pos.mpr this
  | jstr s =>
    show 1 ≤ ('"' :: escapeList s ++ ['"']).length
    simp

/-- The comma–space join of nonempty pieces is at least as long as the list. -/
theorem sepJoin_len_ge (xs : List (List Char)) (h : ∀ x ∈ xs, 1 ≤ x.length) :
    xs.length ≤ (sepJoinComSpace xs).length := by
  induction xs with
  | nil => simp [sepJoinComSpace]
  | cons x xs ih =>
    cases xs with
    | nil => simpa [sepJoinComSpace] using h x (by simp)
    | cons y ys =>
      have hx := h x (by simp)
      have hr := ih (fun z hz => h z (List.mem_cons_of_mem _ hz))
      rw [show sepJoinComSpace (x :: y :: ys) =
        x ++ ", ".data ++ sepJoinComSpace (y :: ys) from rfl]
      simp only [List.length_append, List.length_cons] at *
      have : (", ".data).length = 2 := rfl
      omega

/-- A dumped row is long enough to pay for its parsing fuel at rate two. -/
theorem dumpsRow_len (r : List JVal) : r.length + 3 ≤ 2 * (dumpsRow r).length := by
  have h := sepJoin_len_ge (r.map jvalDumps) (by
    intro x hx
    obtain ⟨v, _, rfl⟩ := List.mem_map.mp hx
    exact jvalDumps_len_pos v)
  simp only [dumpsRow, List.length_cons, List.length_append, List.length_map] at *
  omega

/-- The emitted row fragments are long enough to pay for the row-array parsing
fuel at rate two. -/
theorem emitRows_flatten_len (first : Bool) (rows : List (List JVal)) :
    (rows.map (fun x => x.length + 3)).sum ≤
      2 * ((emitRows first rows).flatten).length := by
  induction rows generalizing first with
  | nil => simp [emitRows]
  | cons r rs ih =>
    have hrow := dumpsRow_len r
    have hrs := ih false
    cases first <;>
      simp only [emitRows, List.map_cons, List.sum_cons, if_true, if_false,
        Bool.false_eq_true, List.append_eq, List.flatten_append,
        List.flatten_cons, List.flatten_nil, List.length_append,
        List.append_nil, List.length_cons, List.length_nil] <;>
      omega

/-- The dumped column list is at least as long as the column list itself. -/
theorem dumpsStrList_len (cols : List (List Char)) :
    cols.length ≤ (dumpsStrList cols).length := by
  have h := sepJoin_len_ge (cols.map dumpsStr) (by
    intro x hx
    obtain ⟨s, _, rfl⟩ := List.mem_map.mp hx
    show 1 ≤ ('"' :: escapeList s ++ ['"']).length
    simp)
  simp only [dumpsStrList, List.length_cons, List.length_append,
    List.length_map] at *
  omega

/-- The concatenation of the yielded fragments, written as one string in the
shape consumed by `parseVal_queryDoc`. -/
theorem stream_flatten_eq (db : Db) (sql : List Char) (page pageSize chunk : Nat)
    (hchunk : 1 ≤ chunk) :
    (stream_query_results db sql page pageSize chunk).flatten =
      '\x7b' :: ('"' :: ("sql".data ++ '"' :: ':' :: ' ' ::
      (dumpsStr sql ++ ',' :: ' ' ::
      ('"' :: ("columns".data ++ '"' :: ':' :: ' ' ::
      (dumpsStrList (db.exec (paginatedQuery sql page pageSize)).1 ++ ',' :: ' ' ::
      ('"' :: ("rows".data ++ '"' :: ':' :: ' ' ::
      (('[' :: ((emitRows true (db.exec (paginatedQuery sql page pageSize)).2).flatten
        ++ [']'])) ++ ',' :: ' ' ::
      ('"' :: ("pagination".data ++ '"' :: ':' :: ' ' ::
      (('\x7b' :: ('"' :: ("page".data ++ '"' :: ':' :: ' ' ::
      (natDigits page ++ ',' :: ' ' ::
      ('"' :: ("page_size".data ++ '"' :: ':' :: ' ' ::
      (natDigits pageSize ++ ',' :: ' ' ::
      ('"' :: ("total_rows".data ++ '"' :: ':' :: ' ' ::
      (natDigits (db.count (countQuery sql)) ++ ',' :: ' ' ::
      ('"' :: ("total_pages".data ++ '"' :: ':' :: ' ' ::
      (natDigits (total_pages (db.count (countQuery sql)) pageSize)
        ++ '\x7d' :: [])))))))))))))
      ++ '\x7d' :: [])))))))))))) := by
  have eA : ("\x7b\"sql\": ".data : List Char) =
    '\x7b' :: '"' :: ("sql".data ++ ['"', ':', ' ']) := rfl
  have eB : (", \"columns\": ".data : List Char) =
    ',' :: ' ' :: '"' :: ("columns".data ++ ['"', ':', ' ']) := rfl
  have eC : (", \"rows\": [".data : List Char) =
    ',' :: ' ' :: '"' :: ("rows".data ++ ['"', ':', ' ', '[']) := rfl
  have eD : ("], \"pagination\": \x7b".data : List Char) =
    ']' :: ',' :: ' ' :: '"' :: ("pagination".data ++ ['"', ':', ' ', '\x7b']) := rfl
  have eE : ("\"page\": ".data : List Char) =
    '"' :: ("page".data ++ ['"', ':', ' ']) := rfl
  have eF : (", \"page_size\": ".data : List Char) =
    ',' :: ' ' :: '"' :: ("page_size".data ++ ['"', ':', ' ']) := rfl
  have eG : (", \"total_rows\": ".data : List Char) =
    ',' :: ' ' :: '"' :: ("total_rows".data ++ ['"', ':', ' ']) := rfl
  have eH : (", ".data : List Char) = [',', ' '] := rfl
  have eI : ("\"total_pages\": ".data : List Char) =
    '"' :: ("total_pages".data ++ ['"', ':', ' ']) := rfl
  have eJ : ("\x7d\x7d".data : List Char) = ['\x7d', '\x7d'] := rfl
  simp only [stream_query_results, streamRowsLoop_eq chunk hchunk,
    List.flatten_cons, List.flatten_append, List.flatten_nil,
    eA, eB, eC, eD, eE, eF, eG, eH, eI, eJ,
    List.cons_append, List.append_assoc, List.nil_append, List.append_nil]

/-- Whole-document parse of the canonical concatenation shape. -/
theorem parseJsonDoc_queryDoc (sql : List Char) (cols : List (List Char))
    (rows : List (List JVal)) (page pageSize total : Nat) :
    parseJsonDoc
      ('\x7b' :: ('"' :: ("sql".data ++ '"' :: ':' :: ' ' ::
      (dumpsStr sql ++ ',' :: ' ' ::
      ('"' :: ("columns".data ++ '"' :: ':' :: ' ' ::
      (dumpsStrList cols ++ ',' :: ' ' ::
      ('"' :: ("rows".data ++ '"' :: ':' :: ' ' ::
      (('[' :: ((emitRows true rows).flatten ++ [']'])) ++ ',' :: ' ' ::
      ('"' :: ("pagination".data ++ '"' :: ':' :: ' ' ::
      (('\x7b' :: ('"' :: ("page".data ++ '"' :: ':' :: ' ' ::
      (natDigits page ++ ',' :: ' ' ::
      ('"' :: ("page_size".data ++ '"' :: ':' :: ' ' ::
      (natDigits pageSize ++ ',' :: ' ' ::
      ('"' :: ("total_rows".data ++ '"' :: ':' :: ' ' ::
      (natDigits total ++ ',' :: ' ' ::
      ('"' :: ("total_pages".data ++ '"' :: ':' :: ' ' ::
      (natDigits (total_pages total pageSize) ++ '\x7d' :: [])))))))))))))
      ++ '\x7d' :: []))))))))))))) =
      some (queryDocJson sql cols rows page pageSize total) := by
  have l1 : ("sql".data : List Char).length = 3 := rfl
  have l2 : ("columns".data : List Char).length = 7 := rfl
  have l3 : ("rows".data : List Char).length = 4 := rfl
  have l4 : ("pagination".data : List Char).length = 10 := rfl
  have l5 : ("page".data : List Char).length = 4 := rfl
  have l6 : ("page_size".data : List Char).length = 9 := rfl
  have l7 : ("total_rows".data : List Char).length = 10 := rfl
  have l8 : ("total_pages".data : List Char).length = 11 := rfl
  have h1 := emitRows_flatten_len true rows
  have h2 := dumpsStrList_len cols
  simp only [parseJsonDoc]
  rw [parseVal_queryDoc sql cols rows page pageSize total _ (by
    simp only [List.length_cons, List.length_append, List.length_nil,
      l1, l2, l3, l4, l5, l6, l7, l8]
    omega)]
  rfl

/-- C4: for every database behaviour (the same oracle serving both executors)
and every `(sql, page, page_size)` with `page ≥ 1` and `page_size ≥ 1`, and
any positive fetch chunk, the fragments yielded by `stream_query_results`,
concatenated in order, parse as one well-formed JSON document whose `sql`,
`columns`, `rows` (the same row list in the same order, cell by cell) and
pagination metadata (`page`, `page_size`, `total_rows`, `total_pages`) are
exactly those of `run_page` on the same `(sql, page, page_size)`; with a
zero-row answer this document carries `rows: []` and `total_rows: 0`. -/
theorem stream_query_results_refines_run_page (db : Db) (sql : List Char)
    (page pageSize chunk : Nat) (hpage : 1 ≤ page) (hps : 1 ≤ pageSize)
    (hchunk : 1 ≤ chunk) :
    parseJsonDoc ((stream_query_results db sql page pageSize chunk).flatten) =
      some (queryDocJson sql (run_page db sql page pageSize).1
        (run_page db sql page pageSize).2.1 page pageSize
        (run_page db sql page pageSize).2.2) := by
  have hc : (run_page db sql page pageSize).1 =
      (db.exec (paginatedQuery sql page pageSize)).1 := rfl
  have hr : (run_page db sql page pageSize).2.1 =
      (db.exec (paginatedQuery sql page pageSize)).2 := rfl
  have ht : (run_page db sql page pageSize).2.2 =
      db.count (countQuery sql) := rfl
  rw [hc, hr, ht, stream_flatten_eq db sql page pageSize chunk hchunk]
  exact parseJsonDoc_queryDoc sql _ _ page pageSize _

/-- C4 witness: the refinement at a concrete zero-row database, page 1,
page size 50 and the code's default chunk 500 — evaluated, the parse of the
concatenated stream is the document with `rows: []` and `total_rows: 0`. -/
theorem stream_query_results_refines_run_page_witness :
    ((1 : Nat) ≤ 1 ∧ (1 : Nat) ≤ 50 ∧ (1 : Nat) ≤ 500) ∧
    parseJsonDoc
        ((stream_query_results trivialDb "select 1".data 1 50 500).flatten) =
      some (.obj [("sql".data, .str "select 1".data),
        ("columns".data, .arr []),
        ("rows".data, .arr []),
        ("pagination".data,
          .obj [("page".data, .num 1), ("page_size".data, .num 50),
            ("total_rows".data, .num 0), ("total_pages".data, .num 0)])]) :=
  ⟨⟨by decide, by decide, by decide⟩, by
    rw [stream_query_results_refines_run_page trivialDb "select 1".data 1 50 500
      (by decide) (by decide) (by decide)]
    rfl⟩

end Text2Sql
